import Mathlib

/-!
Shallow embedding of the integration-sync and job-scheduling engine of the
Joy personal-scheduling assistant (TypeScript source under src/), together
with theorems settling the frozen specification claims.

Conventions of the embedding:
* Timestamps are integers counting milliseconds since the Unix epoch
  (`Date.getTime()` semantics).
* Database tables become Lean lists of rows; a drizzle `update ... where`
  becomes a `List.map` that rewrites the matching rows, an `insert` becomes
  an append, a `delete ... where` becomes a `List.filter`.
* Network calls become explicit outcome parameters (the possible shapes of
  the HTTP response), so every function is a pure state transformer.
* JavaScript truthiness on strings (`s || d`) is modelled by `strOr`.
-/

namespace Joy

/-- JS `a || b` for a possibly-undefined string `a` and string default `b`:
the default is taken when `a` is `undefined` or the empty string. -/
def strOr (a : Option String) (b : String) : String :=
  match a with
  | some s => if s = "" then b else s
  | none => b

/-- JS `a || b` where both sides are possibly-undefined strings. -/
def jsOrOpt (a b : Option String) : Option String :=
  match a with
  | some s => if s = "" then b else some s
  | none => b

/-- JS `s || undefined`: an empty or missing string becomes `undefined`. -/
def optTruthy (a : Option String) : Option String :=
  match a with
  | some s => if s = "" then none else some s
  | none => none

/-- `[a, b, ...].filter(Boolean).join(sep)` on possibly-undefined strings. -/
def joinTruthy (sep : String) (parts : List (Option String)) : String :=
  String.intercalate sep (parts.filterMap optTruthy)

/-! ## Job scheduler surface (src/src/worker/index.ts, BullMQ glue)

The sync worker dispatches jobs on the "sync" queue by name through a
`switch` statement; we embed the switch as a total function into the set of
handlers that the worker actually knows about. -/

/-- The handlers reachable from the sync worker's `switch (job.name)` in
src/src/worker/index.ts.  `unknownJob` is the `default:` branch that only
logs "[sync] Unknown job". -/
inductive SyncJobHandler where
  | googleCalendarSync
  | biginSync
  | salesRabbitSync
  | groceryCleanup
  | unknownJob
  deriving DecidableEq, Repr

/-- The sync worker's dispatch switch (src/src/worker/index.ts lines 64-83). -/
def syncWorkerDispatch (jobName : String) : SyncJobHandler :=
  match jobName with
  | "google-calendar-sync" => .googleCalendarSync
  | "bigin-sync" => .biginSync
  | "salesrabbit-sync" => .salesRabbitSync
  | "grocery-cleanup" => .groceryCleanup
  | _ => .unknownJob

/-- Options passed to `queue.add` for an on-demand job. -/
structure JobOptions where
  delay : Nat
  attempts : Nat
  backoffType : String
  deriving DecidableEq, Repr

/-- The options object passed to `callbackQueue.add("callback-workflow", ...)`
in src/src/worker/jobs/salesrabbit-sync.ts lines 248-252:
`{ delay: 10 * 60 * 1000, attempts: 4, backoff: { type: "custom" } }`. -/
def callbackEnqueueOptions : JobOptions :=
  { delay := 10 * 60 * 1000, attempts := 4, backoffType := "custom" }

/-- Custom backoff strategy for callback workflow retries
(src/src/worker/jobs/callback-workflow.ts lines 38-49). -/
def getCallbackBackoffDelay (attemptsMade : Nat) : Nat :=
  match attemptsMade with
  | 1 => 30 * 60 * 1000
  | 2 => 60 * 60 * 1000
  | 3 => 2 * 60 * 60 * 1000
  | _ => 60 * 60 * 1000

/-! ## Task store rows -/

/-- The task `metadata` JSON blob, restricted to the keys the sync engine
reads or writes. -/
structure TaskMeta where
  salesrabbitStatus : Option String := none
  salesrabbitLeadId : Option String := none
  callbackProcessed : Bool := false
  biginStage : Option String := none
  biginAmount : Option Int := none
  deriving DecidableEq, Repr

/-- A row of the `tasks` table, restricted to the fields the sync engine
touches. -/
structure Task where
  id : Nat
  title : String
  description : Option String := none
  status : String
  category : String
  priority : String
  contactName : Option String := none
  contactPhone : Option String := none
  location : Option String := none
  deadline : Option Int := none
  estimatedMinutes : Option Nat := none
  externalId : Option String := none
  externalSource : Option String := none
  meta : TaskMeta := {}
  deriving DecidableEq, Repr

/-! ## SalesRabbit lead sync (src/src/worker/jobs/salesrabbit-sync.ts) -/

/-- A SalesRabbit lead as consumed by the sync. -/
structure Lead where
  id : String
  firstName : Option String := none
  lastName : Option String := none
  phone : Option String := none
  email : Option String := none
  address : Option String := none
  city : Option String := none
  state : Option String := none
  zip : Option String := none
  notes : Option String := none
  statusName : Option String := none
  status : Option String := none
  customFields : List (String × String) := []
  deriving DecidableEq, Repr

/-- `STATUS_TO_CATEGORY` (salesrabbit-sync.ts lines 13-23). -/
def STATUS_TO_CATEGORY (s : String) : Option String :=
  match s with
  | "Appointment Set" => some "appointment"
  | "Appointment Completed" => some "follow_up"
  | "Not Home" => some "door_knocking"
  | "Not Interested" => some "other"
  | "Sale Made" => some "admin"
  | "Follow Up" => some "follow_up"
  | "Knocked" => some "door_knocking"
  | "Pending" => some "follow_up"
  | "Callback" => some "follow_up"
  | _ => none

/-- `STATUS_TO_PRIORITY` (salesrabbit-sync.ts lines 25-33). -/
def STATUS_TO_PRIORITY (s : String) : Option String :=
  match s with
  | "Appointment Set" => some "high"
  | "Follow Up" => some "medium"
  | "Appointment Completed" => some "medium"
  | "Not Home" => some "low"
  | "Sale Made" => some "low"
  | "Pending" => some "medium"
  | "Callback" => some "high"
  | _ => none

/-- Callback-trigger rule stored in the integration config. -/
structure CallbackTriggerConfig where
  enabled : Bool
  statusNameMatch : String
  customFieldName : String
  customFieldValue : String
  proposalPrepMinutes : Nat
  deriving DecidableEq, Repr

/-- `DEFAULT_CALLBACK_CONFIG` (salesrabbit-sync.ts lines 43-49). -/
def DEFAULT_CALLBACK_CONFIG : CallbackTriggerConfig :=
  { enabled := false
    statusNameMatch := "Callback"
    customFieldName := ""
    customFieldValue := ""
    proposalPrepMinutes := 90 }

/-- `s.toLowerCase()`: ASCII lowercasing, written over the character list so
that it evaluates inside the kernel. -/
def jsToLower (s : String) : String := String.mk (s.data.map Char.toLower)

/-- `isCallbackLead` (salesrabbit-sync.ts lines 56-81): status-name equality
(case-insensitive) or a custom-field match. -/
def isCallbackLead (lead : Lead) (config : CallbackTriggerConfig) : Bool :=
  if !config.enabled then false
  else
    let statusName := strOr lead.statusName (strOr lead.status "")
    if config.statusNameMatch ≠ "" &&
        jsToLower statusName = jsToLower config.statusNameMatch then
      true
    else if config.customFieldName ≠ "" then
      match lead.customFields.lookup config.customFieldName with
      | some fieldValue =>
        if fieldValue ≠ "" then
          if config.customFieldValue = "" then true
          else jsToLower fieldValue = jsToLower config.customFieldValue
        else false
      | none => false
    else false

/-- A job placed on a queue by the sync (name, payload lead id, options). -/
structure EnqueuedJob where
  name : String
  leadId : String
  opts : JobOptions
  deriving DecidableEq, Repr

/-- State threaded through the SalesRabbit per-lead loop: the `tasks` table,
a fresh-id counter for inserts, and the jobs enqueued so far. -/
structure SRState where
  tasks : List Task
  nextTaskId : Nat
  enqueued : List EnqueuedJob
  deriving DecidableEq, Repr

/-- Does this task row mirror external record `extId` from source `src`? -/
def taskPair (extId src : String) (t : Task) : Bool :=
  t.externalId = some extId && t.externalSource = some src

/-- The per-lead body of `runSalesRabbitSync`
(src/src/worker/jobs/salesrabbit-sync.ts lines 144-261): look up the task by
`(externalId, "salesrabbit")`, update in place or insert, then run the
callback-trigger check, which marks the source task `callbackProcessed`
(only when a row pre-existed) and enqueues a `callback-workflow` job. -/
def processLead (callbackConfig : CallbackTriggerConfig) (lead : Lead)
    (st : SRState) : SRState :=
  let externalId := "sr_" ++ lead.id
  let contactName := joinTruthy " " [lead.firstName, lead.lastName]
  let location := joinTruthy ", " [lead.address, lead.city, lead.state]
  let statusName := strOr lead.statusName (strOr lead.status "Pending")
  let category := (STATUS_TO_CATEGORY statusName).getD "other"
  let priority := (STATUS_TO_PRIORITY statusName).getD "medium"
  let existing := st.tasks.find? (taskPair externalId "salesrabbit")
  let st1 : SRState :=
    match existing with
    | some ex =>
      { st with
          tasks := st.tasks.map (fun t =>
            if t.id = ex.id then
              { t with
                  title := statusName ++ ": " ++
                    (if contactName = "" then "Lead" else contactName)
                  category := category
                  priority := priority
                  contactName :=
                    if contactName = "" then ex.contactName else some contactName
                  contactPhone := jsOrOpt lead.phone ex.contactPhone
                  location := if location = "" then ex.location else some location
                  meta := { ex.meta with salesrabbitStatus := some statusName } }
            else t) }
    | none =>
      let newTask : Task :=
        { id := st.nextTaskId
          title := statusName ++ ": " ++
            (if contactName = "" then "Lead" else contactName)
          description :=
            some (strOr lead.notes ("SalesRabbit lead: " ++ contactName))
          status := "inbox"
          category := category
          priority := priority
          contactName := if contactName = "" then none else some contactName
          contactPhone := optTruthy lead.phone
          location := if location = "" then none else some location
          externalId := some externalId
          externalSource := some "salesrabbit"
          meta := { salesrabbitStatus := some statusName
                    salesrabbitLeadId := some lead.id } }
      { st with
          tasks := st.tasks ++ [newTask]
          nextTaskId := st.nextTaskId + 1 }
  if callbackConfig.enabled && isCallbackLead lead callbackConfig &&
      !(match existing with
        | some ex => ex.meta.callbackProcessed
        | none => false) then
    let st2 : SRState :=
      match existing with
      | some ex =>
        { st1 with
            tasks := st1.tasks.map (fun t =>
              if t.id = ex.id then
                { t with meta := { ex.meta with callbackProcessed := true } }
              else t) }
      | none => st1
    { st2 with
        enqueued := st2.enqueued ++
          [{ name := "callback-workflow"
             leadId := lead.id
             opts := callbackEnqueueOptions }] }
  else st1

/-! ## Bigin CRM deal sync (src/unnamed/part_021, `runBiginSync` deal loop) -/

/-- A Bigin deal record as consumed by the sync.  `Closing_Date` is already
parsed to a millisecond timestamp (`new Date(deal.Closing_Date)`). -/
structure BiginDeal where
  id : String
  Deal_Name : String
  Stage : String
  Contact_Name : Option String := none
  Phone : Option String := none
  Email : Option String := none
  Amount : Option Int := none
  Closing_Date : Option Int := none
  Description : Option String := none
  Address : Option String := none
  deriving DecidableEq, Repr

/-- `STAGE_TO_CATEGORY` (part_021 lines 13-26). -/
def STAGE_TO_CATEGORY (s : String) : Option String :=
  match s with
  | "Qualification" => some "follow_up"
  | "Needs Analysis" => some "follow_up"
  | "Appointment Set" => some "appointment"
  | "Appointment Scheduled" => some "appointment"
  | "Proposal" => some "follow_up"
  | "Negotiation" => some "follow_up"
  | "Closed Won" => some "admin"
  | "Closed Lost" => some "admin"
  | "Follow Up" => some "follow_up"
  | "Site Survey" => some "appointment"
  | "Installation" => some "appointment"
  | "Design Review" => some "admin"
  | _ => none

/-- `STAGE_TO_PRIORITY` (part_021 lines 28-38). -/
def STAGE_TO_PRIORITY (s : String) : Option String :=
  match s with
  | "Appointment Set" => some "high"
  | "Appointment Scheduled" => some "high"
  | "Negotiation" => some "high"
  | "Site Survey" => some "high"
  | "Installation" => some "urgent"
  | "Proposal" => some "medium"
  | "Follow Up" => some "medium"
  | "Qualification" => some "low"
  | "Needs Analysis" => some "low"
  | _ => none

/-- Task table with a fresh-id counter for inserts. -/
structure TaskDb where
  tasks : List Task
  nextTaskId : Nat
  deriving DecidableEq, Repr

/-- The per-deal body of `runBiginSync`'s deal loop (part_021 lines 144-201):
look up the task by `(externalId = deal.id, externalSource = "bigin")`,
update in place if present; otherwise insert a new task unless the deal is
in a closed stage. -/
def biginDealStep (deal : BiginDeal) (st : TaskDb) : TaskDb :=
  let category := (STAGE_TO_CATEGORY deal.Stage).getD "other"
  let priority := (STAGE_TO_PRIORITY deal.Stage).getD "medium"
  let existing := st.tasks.find? (taskPair deal.id "bigin")
  match existing with
  | some ex =>
    { st with
        tasks := st.tasks.map (fun t =>
          if t.id = ex.id then
            { t with
                title := deal.Stage ++ ": " ++ deal.Deal_Name
                category := category
                priority := priority
                contactName := deal.Contact_Name
                contactPhone := jsOrOpt deal.Phone ex.contactPhone
                location := jsOrOpt deal.Address ex.location
                deadline :=
                  match deal.Closing_Date with
                  | some d => some d
                  | none => ex.deadline
                meta := { ex.meta with
                          biginStage := some deal.Stage
                          biginAmount := deal.Amount } }
          else t) }
  | none =>
    if deal.Stage ≠ "Closed Won" && deal.Stage ≠ "Closed Lost" then
      let newTask : Task :=
        { id := st.nextTaskId
          title := deal.Stage ++ ": " ++ deal.Deal_Name
          description :=
            some (strOr deal.Description ("Bigin deal: " ++ deal.Deal_Name))
          status := "inbox"
          category := category
          priority := priority
          contactName := deal.Contact_Name
          contactPhone := optTruthy deal.Phone
          location := optTruthy deal.Address
          deadline := deal.Closing_Date
          externalId := some deal.id
          externalSource := some "bigin"
          meta := { biginStage := some deal.Stage
                    biginAmount := deal.Amount } }
      { st with
          tasks := st.tasks ++ [newTask]
          nextTaskId := st.nextTaskId + 1 }
    else st

/-! ## Credential store / token manager -/

/-- A row of the `integrationState` table (one per provider). -/
structure IntegrationState where
  provider : String
  accessToken : Option String := none
  refreshToken : Option String := none
  tokenExpiresAt : Option Int := none
  syncCursor : Option String := none
  isActive : Bool := false
  deriving DecidableEq, Repr

/-- The possible shapes of the OAuth refresh HTTP exchange:
the call can throw, return a non-OK status, or return OK with a JSON body
that may or may not contain `access_token` (and an `expires_in`). -/
inductive RefreshHttp where
  | threw
  | httpError
  | ok (accessToken : Option String) (expiresIn : Option Int)
  deriving DecidableEq, Repr

/-- `refreshAccessToken` (src/src/lib/bigin/index.ts lines 113-151):
returns the new token, updating the stored token and expiry on success;
returns `none` on a non-OK response, an error body, or a thrown call
(the `catch` returns `null`).  Never touches `isActive` itself. -/
def refreshAccessToken (now : Int) (outcome : RefreshHttp)
    (st : IntegrationState) : Option String × IntegrationState :=
  match outcome with
  | .threw => (none, st)
  | .httpError => (none, st)
  | .ok tok expiresIn =>
    match tok with
    | none => (none, st)
    | some t =>
      (some t,
       { st with
           accessToken := some t
           tokenExpiresAt := some (now + (expiresIn.getD 3600) * 1000) })

/-- `getAccessToken` (src/src/lib/bigin/index.ts lines 156-192): the library
token manager.  Returns the usable token together with the provider row as
left in the database.  When a refresh is needed and fails — no refresh token
or `refreshAccessToken` returned `none` — the row is deactivated. -/
def getAccessToken (now : Int) (outcome : RefreshHttp)
    (state : Option IntegrationState) :
    Option String × Option IntegrationState :=
  match state with
  | none => (none, none)
  | some s =>
    -- the select filters on `isActive = true`; an inactive row is unseen
    if !s.isActive then (none, some s)
    else
      match s.accessToken with
      | none => (none, some s)
      | some tok =>
        let expiresAt := s.tokenExpiresAt.getD 0
        if now > expiresAt - 5 * 60 * 1000 then
          match s.refreshToken with
          | none => (none, some { s with isActive := false })
          | some _ =>
            let r := refreshAccessToken now outcome s
            match r.1 with
            | none => (none, some { r.2 with isActive := false })
            | some t => (some t, some r.2)
        else (some tok, some s)

/-- The result of the worker-local `getBiginToken`: the call can propagate a
thrown fetch, or return `some token` / `null`. -/
inductive TokenResult where
  | threw
  | got (token : Option String)
  deriving DecidableEq, Repr

/-- `getBiginToken` (src/src/worker/jobs/callback-workflow.ts lines 55-111):
the Callback Saga's own copy of the token path.  On a needed refresh it
returns `null` when the refresh token is missing or the refresh call is
non-OK or lacks `access_token` — in all cases WITHOUT deactivating the
provider row — and lets a thrown fetch propagate. -/
def getBiginToken (now : Int) (outcome : RefreshHttp)
    (state : Option IntegrationState) :
    TokenResult × Option IntegrationState :=
  match state with
  | none => (.got none, none)
  | some s =>
    if !s.isActive then (.got none, some s)
    else
      match s.accessToken with
      | none => (.got none, some s)
      | some tok =>
        let expiresAt := s.tokenExpiresAt.getD 0
        if now > expiresAt - 5 * 60 * 1000 then
          match s.refreshToken with
          | none => (.got none, some s)
          | some _ =>
            match outcome with
            | .threw => (.threw, some s)
            | .httpError => (.got none, some s)
            | .ok newTok expiresIn =>
              match newTok with
              | none => (.got none, some s)
              | some t =>
                (.got (some t),
                 some { s with
                          accessToken := some t
                          tokenExpiresAt :=
                            some (now + (expiresIn.getD 3600) * 1000) })
        else (.got (some tok), some s)

/-! ## Calendar store rows and remote Google events -/

/-- A row of the `calendarEvents` table, restricted to the fields the sync
engine touches; the `metadata` JSON keys it reads or writes are inlined as
`meta*` fields. -/
structure CalendarEvent where
  id : Nat
  title : String
  description : Option String := none
  startTime : Int
  endTime : Int
  location : Option String := none
  taskId : Option Nat := none
  source : String
  googleEventId : Option String := none
  isBlocker : Bool := false
  color : Option String := none
  metaCategory : Option String := none
  metaCalendarType : Option String := none
  metaCallbackPrepLeadId : Option String := none
  metaGoogleCalendar : Bool := false
  metaSourceCalendar : Option String := none
  deriving DecidableEq, Repr

/-- A remote Google Calendar event as returned by `events.list`.
`startDateTime`/`endDateTime` are `none` for all-day events (no `dateTime`
field); `joyEventId` is the `extendedProperties.private.joyEventId` marker
the engine stamps on events it created. -/
structure GoogleEvent where
  id : Option String := none
  summary : Option String := none
  description : Option String := none
  startDateTime : Option Int := none
  endDateTime : Option Int := none
  location : Option String := none
  status : Option String := none
  joyEventId : Option String := none
  deriving DecidableEq, Repr

/-! ## Step 4 of the Callback Saga: `schedulePrepWork`
(src/src/worker/jobs/callback-workflow.ts lines 429-489) -/

/-- `schedulePrepWork`: dedup by the `callbackPrepLeadId` metadata marker on
`ai_planned` events; otherwise insert a prep block ending 15 minutes before
the appointment and spanning `prepMinutes` backward, then set the task's
deadline to the appointment start and its status to `scheduled`. -/
def schedulePrepWork (taskId : Nat) (leadId : String) (prepMinutes : Nat)
    (appointmentStart : Int) (events : List CalendarEvent) (nextEventId : Nat)
    (tasks : List Task) : List CalendarEvent × Nat × List Task :=
  let existingEvents := events.filter (fun e => e.source = "ai_planned")
  let alreadyScheduled :=
    existingEvents.find? (fun e => e.metaCallbackPrepLeadId = some leadId)
  match alreadyScheduled with
  | some _ => (events, nextEventId, tasks)
  | none =>
    let bufferMinutes : Int := 15
    let prepEndTime := appointmentStart - bufferMinutes * 60 * 1000
    let prepStartTime := prepEndTime - (prepMinutes : Int) * 60 * 1000
    let prepEvent : CalendarEvent :=
      { id := nextEventId
        title := "Prepare proposal"
        description := some "Proposal prep time before appointment"
        startTime := prepStartTime
        endTime := prepEndTime
        taskId := some taskId
        source := "ai_planned"
        isBlocker := false
        color := some "orange"
        metaCategory := some "admin"
        metaCalendarType := some "work"
        metaCallbackPrepLeadId := some leadId }
    let tasks2 := tasks.map (fun t =>
      if t.id = taskId then
        { t with deadline := some appointmentStart, status := "scheduled" }
      else t)
    (events ++ [prepEvent], nextEventId + 1, tasks2)

/-- Days since 1970-01-01 of a proleptic-Gregorian civil date
(Howard Hinnant's `days_from_civil` algorithm, as used by `Date`). -/
def daysFromCivil (y : Int) (m d : Nat) : Int :=
  let y1 : Int := if m ≤ 2 then y - 1 else y
  let era : Int := (if 0 ≤ y1 then y1 else y1 - 399) / 400
  let yoe : Int := y1 - era * 400
  let mp : Nat := if m > 2 then m - 3 else m + 9
  let doy : Int := ((153 * mp + 2) / 5 + d - 1 : Nat)
  let doe : Int := yoe * 365 + yoe / 4 - yoe / 100 + doy
  era * 146097 + doe - 719468

/-- Milliseconds since the Unix epoch of a UTC datetime. -/
def utcMillis (y : Int) (m d h mi s : Nat) : Int :=
  daysFromCivil y m d * 86400000 +
    (h * 3600000 + mi * 60000 + s * 1000 : Nat)

/-! ## Reconciliation: pull (src/src/lib/google-calendar/index.ts,
`pullExternalEvents`, lines 547-671) -/

/-- State threaded through the pull's per-event loop. -/
structure PullState where
  events : List CalendarEvent
  nextId : Nat
  allGoogleEventIds : List String
  imported : Nat
  deriving DecidableEq, Repr

/-- The per-remote-event body of `pullExternalEvents` for calendar
`calendarId`: skip Joy-created, all-day and cancelled events, collect the
remote id, then update the mirror on a genuine diff or create a new blocker
mirror. -/
def pullStep (calendarId : String) (st : PullState) (g : GoogleEvent) :
    PullState :=
  if g.joyEventId.isSome then st
  else
    match g.startDateTime, g.endDateTime with
    | some sdt, some edt =>
      if g.status = some "cancelled" then st
      else
        match g.id with
        | none => st
        | some gid =>
          let st := { st with
                        allGoogleEventIds := st.allGoogleEventIds ++ [gid] }
          let title := strOr g.summary "Busy"
          match st.events.find? (fun e => e.googleEventId = some gid) with
          | some existing =>
            let changed : Bool :=
              existing.title ≠ title ||
              existing.startTime ≠ sdt ||
              existing.endTime ≠ edt ||
              existing.location ≠ optTruthy g.location
            if changed then
              { st with
                  events := st.events.map (fun e =>
                    if e.id = existing.id then
                      { e with
                          title := title
                          startTime := sdt
                          endTime := edt
                          location := optTruthy g.location
                          description := optTruthy g.description }
                    else e) }
            else st
          | none =>
            let sourceLabel :=
              if calendarId = "primary" then "personal" else "work"
            let mirror : CalendarEvent :=
              { id := st.nextId
                title := title
                description := optTruthy g.description
                startTime := sdt
                endTime := edt
                location := optTruthy g.location
                source := "google_calendar"
                googleEventId := some gid
                isBlocker := true
                color := some "slate"
                metaCategory := some "other"
                metaGoogleCalendar := true
                metaSourceCalendar := some sourceLabel }
            { st with
                events := st.events ++ [mirror]
                nextId := st.nextId + 1
                imported := st.imported + 1 }
    | _, _ => st

/-- One `events.list` call's worth of the pull loop. -/
def pullFromCalendar (calendarId : String) (evs : List GoogleEvent)
    (st : PullState) : PullState :=
  evs.foldl (pullStep calendarId) st

/-- Is this row one of the "Joy blocker" mirrors the drift cleanup examines?
(`source = "google_calendar"`, `startTime` in `[startDate, endDate)`,
`googleEventId` not null.) -/
def isJoyBlocker (startDate endDate : Int) (e : CalendarEvent) : Bool :=
  e.source = "google_calendar" && startDate ≤ e.startTime &&
    e.startTime < endDate && e.googleEventId.isSome

/-- Result of a pull: the table, the fresh-id counter, the count of created
mirrors, and the ids of the locally deleted rows (drift cleanup). -/
structure PullResult where
  events : List CalendarEvent
  nextId : Nat
  imported : Nat
  deletedIds : List Nat
  deriving DecidableEq, Repr

/-- The pull's per-calendar loop over all listed calendars (step 1 of
`pullExternalEvents`). -/
def pullPhaseA (listing : List (String × List GoogleEvent))
    (st0 : PullState) : PullState :=
  listing.foldl (fun s c => pullFromCalendar c.1 c.2 s) st0

/-- The stale Joy blocker mirrors the drift cleanup deletes: the queried
blockers (`isJoyBlocker`) whose remote id was not collected during the
pull. -/
def pullStale (startDate endDate : Int) (st : PullState) :
    List CalendarEvent :=
  (st.events.filter (isJoyBlocker startDate endDate)).filter (fun b =>
    match b.googleEventId with
    | some gid => !st.allGoogleEventIds.contains gid
    | none => false)

/-- `pullExternalEvents`: loop over the calendars' listings, then drift
cleanup — every Joy blocker mirror in the horizon whose remote id was not
collected is deleted by id.  (The source iterates over a snapshot of the
blockers, deleting row by row; since each delete is keyed by the blocker's
own id, the combined effect on the table is this filter.) -/
def pullExternalEvents (startDate endDate : Int)
    (listing : List (String × List GoogleEvent))
    (events : List CalendarEvent) (nextId : Nat) : PullResult :=
  let st1 := pullPhaseA listing
    { events := events, nextId := nextId, allGoogleEventIds := [],
      imported := 0 }
  let stale := pullStale startDate endDate st1
  { events := st1.events.filter (fun e => !stale.any (fun b => b.id = e.id))
    nextId := st1.nextId
    imported := st1.imported
    deletedIds := stale.map (fun b => b.id) }

/-- The full set of remote ids returned by a pull's list calls (before any
of the pull's skip filters). -/
def listedIds (listing : List (String × List GoogleEvent)) : List String :=
  (listing.map (fun c => c.2)).flatten.filterMap (fun g => g.id)

/-! ## Reconciliation: push (src/src/lib/google-calendar/index.ts,
`fullSync` step 1, lines 725-758, and `pushEventToGoogle`, lines 408-458) -/

/-- State threaded through the push loop: the table, the event ids for which
a remote `events.insert` call was issued, and a counter generating the
remote ids Google returns. -/
structure PushState where
  events : List CalendarEvent
  createCalls : List Nat
  nextRemoteSeq : Nat
  pushed : Nat
  deriving DecidableEq, Repr

/-- `pushEventToGoogle` on the success path: issue the remote create call
and store the returned remote id on the local entry. -/
def pushEventToGoogle (e : CalendarEvent) (st : PushState) : PushState :=
  let gid := "joy-" ++ toString st.nextRemoteSeq
  { events := st.events.map (fun x =>
      if x.id = e.id then { x with googleEventId := some gid } else x)
    createCalls := st.createCalls ++ [e.id]
    nextRemoteSeq := st.nextRemoteSeq + 1
    pushed := st.pushed + 1 }

/-- `fullSync` step 1: select the `ai_planned` events in the horizon and
push each one that has no remote id yet. -/
def fullSyncPush (startDate endDate : Int) (events : List CalendarEvent)
    (remoteSeq : Nat) : PushState :=
  let unpushedEvents := events.filter (fun e =>
    e.source = "ai_planned" && startDate ≤ e.startTime &&
      e.startTime < endDate)
  unpushedEvents.foldl
    (fun st e => if e.googleEventId.isSome then st else pushEventToGoogle e st)
    { events := events, createCalls := [], nextRemoteSeq := remoteSeq,
      pushed := 0 }

/-! ## The recurring worker-side calendar sync
(src/src/worker/jobs/google-calendar-sync.ts, `runGoogleCalendarSync`) -/

/-- State threaded through the worker job's pull loop (the job collects no
remote-id set and performs no drift cleanup). -/
structure GcalJobPullState where
  events : List CalendarEvent
  nextId : Nat
  pulled : Nat
  deriving DecidableEq, Repr

/-- The per-remote-event body of the worker job's pull (lines 180-226):
like the library pull but with no id collection, a diff check on
title/start/end only, and no `description` on update. -/
def gcalSyncPullStep (st : GcalJobPullState) (g : GoogleEvent) :
    GcalJobPullState :=
  if g.joyEventId.isSome then st
  else
    match g.startDateTime, g.endDateTime with
    | some sdt, some edt =>
      if g.status = some "cancelled" then st
      else
        match g.id with
        | none => st
        | some gid =>
          let title := strOr g.summary "Busy"
          match st.events.find? (fun e => e.googleEventId = some gid) with
          | some existing =>
            let changed : Bool :=
              existing.title ≠ title ||
              existing.startTime ≠ sdt ||
              existing.endTime ≠ edt
            if changed then
              { st with
                  events := st.events.map (fun e =>
                    if e.id = existing.id then
                      { e with
                          title := title
                          startTime := sdt
                          endTime := edt
                          location := optTruthy g.location }
                    else e) }
            else st
          | none =>
            let mirror : CalendarEvent :=
              { id := st.nextId
                title := title
                description := optTruthy g.description
                startTime := sdt
                endTime := edt
                location := optTruthy g.location
                source := "google_calendar"
                googleEventId := some gid
                isBlocker := true
                color := some "slate"
                metaCategory := some "other"
                metaGoogleCalendar := true }
            { st with
                events := st.events ++ [mirror]
                nextId := st.nextId + 1
                pulled := st.pulled + 1 }
    | _, _ => st

/-- `runGoogleCalendarSync`'s effect on the `calendarEvents` table: step 1
pushes the unpushed `ai_planned` events in the horizon (lines 121-165,
filtering `!e.googleEventId && startDate ≤ e.startTime < endDate` over the
`ai_planned` rows), step 2 pulls the primary calendar's events as blocker
mirrors (lines 167-229).  The job never deletes a row. -/
def runGoogleCalendarSync (startDate endDate : Int)
    (remote : List GoogleEvent) (events : List CalendarEvent)
    (nextId remoteSeq : Nat) : List CalendarEvent × Nat :=
  let unpushedNull := events.filter (fun e => e.source = "ai_planned")
  let toPush := unpushedNull.filter (fun e =>
    !e.googleEventId.isSome && startDate ≤ e.startTime &&
      e.startTime < endDate)
  let p := toPush.foldl (fun st e => pushEventToGoogle e st)
    { events := events, createCalls := [], nextRemoteSeq := remoteSeq,
      pushed := 0 }
  let q := remote.foldl gcalSyncPullStep
    { events := p.events, nextId := nextId, pulled := 0 }
  (q.events, q.nextId)

/-! ## Auxiliary predicates and concrete instances used by the theorems -/

/-- Per-event contribution to `allGoogleEventIds`: the remote id is collected
exactly when the event passes the pull's skip filters, which depend only on
the event itself. -/
def collectContribution (g : GoogleEvent) : Option String :=
  if g.joyEventId.isSome then none
  else
    match g.startDateTime, g.endDateTime with
    | some _, some _ =>
      if g.status = some "cancelled" then none else g.id
    | _, _ => none

/-- The remote ids a pull collects, as a function of the listings alone. -/
def collectedIds (listing : List (String × List GoogleEvent)) : List String :=
  listing.flatMap (fun c => c.2.filterMap collectContribution)

/-- Well-formedness of a pull state: row ids are pairwise distinct and the
fresh-id counter is above every row id. -/
def EvInv (st : PullState) : Prop :=
  (st.events.map CalendarEvent.id).Nodup ∧ ∀ e ∈ st.events, e.id < st.nextId

/-- Invariant carried through the pull's per-event loop, relative to the
table `base` the loop started from and the set `allowed` of remote ids that
the listings can mention: well-formed ids, collected ids all allowed, every
row either original or carrying a collected remote id, and every original
row whose remote id is not allowed still present untouched. -/
def PullInv (base : List CalendarEvent) (allowed : List String)
    (st : PullState) : Prop :=
  EvInv st ∧
  (∀ x ∈ st.allGoogleEventIds, x ∈ allowed) ∧
  (∀ e ∈ st.events, e ∈ base ∨
    ∃ h, e.googleEventId = some h ∧ h ∈ st.allGoogleEventIds) ∧
  (∀ b ∈ base, (∀ h, b.googleEventId = some h → h ∉ allowed) →
    b ∈ st.events)

/-- Did the refresh HTTP exchange fail to produce an access token? -/
def refreshFails (o : RefreshHttp) : Bool :=
  match o with
  | .ok (some _) _ => false
  | _ => true

/-- The callback-trigger rule switched on (otherwise the defaults):
`{enabled: true, statusNameMatch: "Callback", proposalPrepMinutes: 90}`. -/
def cfgEnabled : CallbackTriggerConfig :=
  { DEFAULT_CALLBACK_CONFIG with enabled := true }

/-- The spec's scenario lead: `{id: "42", statusName: "Callback"}`. -/
def lead42 : Lead :=
  { id := "42", lastName := some "Doe", statusName := some "Callback" }

/-- A lead in the terminal status "Not Interested" (the rep closed it out). -/
def leadNotInterested : Lead :=
  { id := "77", firstName := some "Pat", statusName := some "Not Interested" }

/-- An empty task store for the SalesRabbit sync. -/
def emptySRState : SRState := { tasks := [], nextTaskId := 1, enqueued := [] }

/-- An empty task store for the Bigin sync. -/
def emptyTaskDb : TaskDb := { tasks := [], nextTaskId := 1 }

/-- A Bigin provider row whose token is long expired and which has no
refresh token, but is still marked active. -/
def expiredNoRefreshState : IntegrationState :=
  { provider := "bigin", accessToken := some "token", refreshToken := none,
    tokenExpiresAt := some 0, isActive := true }

/-- A Bigin deal in the closed stage "Closed Won". -/
def dealClosedWon : BiginDeal :=
  { id := "d9", Deal_Name := "Smith - Solar", Stage := "Closed Won" }

/-- A Bigin deal in the open stage "Negotiation". -/
def dealNegotiation : BiginDeal :=
  { id := "d4", Deal_Name := "Jones - Solar", Stage := "Negotiation" }

/-- An existing local task mirroring Bigin deal `d9`. -/
def taskForDealD9 : Task :=
  { id := 5, title := "Negotiation: Smith - Solar", status := "inbox",
    category := "follow_up", priority := "high",
    externalId := some "d9", externalSource := some "bigin" }

/-- An existing local blocker mirror of remote Google event `g-old`,
starting 2025-03-21T10:00:00Z. -/
def staleMirror : CalendarEvent :=
  { id := 3, title := "Dentist", startTime := utcMillis 2025 3 21 10 0 0,
    endTime := utcMillis 2025 3 21 11 0 0, source := "google_calendar",
    googleEventId := some "g-old", isBlocker := true }

/-- A remote Google event distinct from `g-old`. -/
def remoteEventG1 : GoogleEvent :=
  { id := some "g1", summary := some "Standup",
    startDateTime := some (utcMillis 2025 3 22 9 0 0),
    endDateTime := some (utcMillis 2025 3 22 9 30 0) }

/-- An unpushed `ai_planned` local event inside the sync horizon. -/
def unpushedPlannedEvent : CalendarEvent :=
  { id := 8, title := "Prepare proposal",
    startTime := utcMillis 2025 3 21 12 0 0,
    endTime := utcMillis 2025 3 21 13 0 0, source := "ai_planned" }

/-! # Theorems

General list lemmas used across the claims, then the claims C1-C10. -/

theorem find?_append_right {α} (p : α → Bool) (l : List α) (a : α)
    (h : l.find? p = none) (ha : p a = true) :
    (l ++ [a]).find? p = some a := by
  induction l with
  | nil => simp [List.find?, ha]
  | cons x xs ih =>
    rw [List.find?_eq_none] at h
    have hx : p x = false := by
      have := h x (by simp)
      simpa using this
    have hxs : xs.find? p = none := by
      rw [List.find?_eq_none]
      intro y hy
      exact h y (by simp [hy])
    simpa [List.cons_append, List.find?, hx] using ih hxs

theorem filter_append_singleton_pos {α} (p : α → Bool) (l : List α) (a : α)
    (ha : p a = true) : (l ++ [a]).filter p = l.filter p ++ [a] := by
  simp [List.filter_append, List.filter_singleton, ha]

theorem countP_map_congr {α} (f : α → α) (p : α → Bool) (l : List α)
    (h : ∀ x, p (f x) = p x) : (l.map f).countP p = l.countP p := by
  induction l with
  | nil => simp
  | cons x xs ih => simp [List.countP_cons, h, ih]

theorem foldl_induction {σ α} (f : σ → α → σ) (P : σ → Prop) :
    ∀ (l : List α) (s : σ), P s → (∀ t a, a ∈ l → P t → P (f t a)) →
      P (l.foldl f s) := by
  intro l
  induction l with
  | nil => intro s hs _; simpa using hs
  | cons x xs ih =>
    intro s hs hstep
    simp only [List.foldl_cons]
    exact ih (f s x) (hstep s x (by simp) hs)
      (fun t a ha ht => hstep t a (by simp [ha]) ht)

theorem count_filterMap_eq_countP {α β} [DecidableEq β] (f : α → Option β)
    (l : List α) (b : β) :
    (l.filterMap f).count b = l.countP (fun x => f x = some b) := by
  induction l with
  | nil => simp
  | cons x xs ih =>
    cases hfx : f x with
    | none =>
      simp [List.filterMap_cons, hfx, List.countP_cons, ih]
    | some y =>
      by_cases hyb : y = b
      · subst hyb
        simp [List.filterMap_cons, hfx, List.count_cons, List.countP_cons, ih]
      · simp [List.filterMap_cons, hfx, List.count_cons, List.countP_cons,
          ih, hyb, Ne.symm hyb]

theorem countP_id_eq_one {α} (f : α → Nat) (l : List α) (a : α)
    (hnd : (l.map f).Nodup) (ha : a ∈ l) :
    l.countP (fun x => f x = f a) = 1 := by
  induction l with
  | nil => cases ha
  | cons x xs ih =>
    simp only [List.map_cons, List.nodup_cons] at hnd
    rcases List.mem_cons.mp ha with h | h
    · subst h
      have hzero : xs.countP (fun y => f y = f a) = 0 := by
        rw [List.countP_eq_zero]
        intro y hy
        simp only [decide_eq_true_eq]
        intro hcontra
        exact hnd.1 (hcontra ▸ List.mem_map_of_mem f hy)
      simp [List.countP_cons, hzero]
    · have hx : ¬ (f x = f a) := by
        intro hcontra
        exact hnd.1 (hcontra ▸ List.mem_map_of_mem f h)
      simp [List.countP_cons, hx, ih hnd.2 h]

/-- C1: the lead sync enqueues "callback-workflow" jobs on the "sync" queue,
but the sync worker's dispatch switch has no case for that job name: the job
falls into the `default:` branch, which only logs "[sync] Unknown job", so
the Callback Saga handler `runCallbackWorkflow` is never invoked (and no
worker registers the custom backoff strategy).  This contradicts the claim
that such jobs are dispatched to `runCallbackWorkflow`. -/
theorem syncWorkerDispatch_callback_workflow_unknown :
    syncWorkerDispatch "callback-workflow" = SyncJobHandler.unknownJob := by
  rfl

/-- C2: the custom backoff function returns exactly 1 800 000 ms, 3 600 000
ms and 7 200 000 ms at `attemptsMade = 1, 2, 3`, and every saga job enqueued
by the lead sync's per-lead body uses the options
`{delay: 600000, attempts: 4, backoff: custom}`. -/
theorem callback_backoff_and_enqueue_schedule :
    getCallbackBackoffDelay 1 = 1800000 ∧
    getCallbackBackoffDelay 2 = 3600000 ∧
    getCallbackBackoffDelay 3 = 7200000 ∧
    callbackEnqueueOptions.delay = 600000 ∧
    callbackEnqueueOptions.attempts = 4 ∧
    ∀ (cfg : CallbackTriggerConfig) (lead : Lead) (st : SRState)
      (j : EnqueuedJob), j ∈ (processLead cfg lead st).enqueued →
        j ∈ st.enqueued ∨
          (j.name = "callback-workflow" ∧ j.opts = callbackEnqueueOptions) := by
  refine ⟨rfl, rfl, rfl, rfl, rfl, ?_⟩
  intro cfg lead st j hj
  unfold processLead at hj
  rcases hfind : st.tasks.find?
      (taskPair ("sr_" ++ lead.id) "salesrabbit") with - | ex <;>
    simp only [hfind] at hj <;>
    split at hj <;>
    simp only [List.mem_append, List.mem_singleton] at hj <;>
    first
      | exact Or.inl hj
      | rcases hj with hj | hj
        · exact Or.inl hj
        · exact Or.inr ⟨by rw [hj], by rw [hj]⟩

/-- Witness for C2: a saga job actually enqueued by the per-lead body (for
the scenario lead on an empty store) carries the claimed options. -/
theorem callback_backoff_and_enqueue_schedule_witness :
    ({ name := "callback-workflow", leadId := "42",
       opts := callbackEnqueueOptions } : EnqueuedJob) ∈
      (processLead cfgEnabled lead42 emptySRState).enqueued ∧
    (({ name := "callback-workflow", leadId := "42",
        opts := callbackEnqueueOptions } : EnqueuedJob) ∈
        emptySRState.enqueued ∨
      (({ name := "callback-workflow", leadId := "42",
          opts := callbackEnqueueOptions } : EnqueuedJob).name =
          "callback-workflow" ∧
        ({ name := "callback-workflow", leadId := "42",
           opts := callbackEnqueueOptions } : EnqueuedJob).opts =
          callbackEnqueueOptions)) :=
  ⟨by decide,
   callback_backoff_and_enqueue_schedule.2.2.2.2.2 cfgEnabled lead42
     emptySRState _ (by decide)⟩

/-- C3's claim is that a lead matching the callback rule has its source task
marked `callbackProcessed` in the same run, whether or not a task already
existed, so an unchanged lead never yields a second saga job.  On the code
this fails when no task pre-existed: the insert path writes no
`callbackProcessed` marker and the marking update is guarded by
`if (existing)`, so the next run — which sees the same unchanged lead and now
finds the (unmarked) task — enqueues a second `callback-workflow` job.
The code's own comment says the marking is there "to prevent re-trigger",
so this is a bug in the code rather than in the spec.  Concretely: the lead
`{id: "42", statusName: "Callback"}` with rule `{enabled: true,
statusNameMatch: "Callback"}` on an empty task store ends its first run
with one enqueued saga job and an unmarked task, and its second run
enqueues a second saga job. -/
theorem callback_retrigger_on_second_sync_run :
    (processLead cfgEnabled lead42 emptySRState).enqueued.length = 1 ∧
    (processLead cfgEnabled lead42 emptySRState).tasks.all
      (fun t => !t.meta.callbackProcessed) = true ∧
    (processLead cfgEnabled lead42
      (processLead cfgEnabled lead42 emptySRState)).enqueued.length = 2 := by
  decide

/-- C4 counterexample: a token-acquisition path where a refresh is attempted
and fails yet the provider stays active.  The Callback Saga's own
`getBiginToken` (callback-workflow.ts lines 55-111) with a long-expired
token and no refresh token returns `null` and leaves the Bigin provider row
exactly as it was — `isActive` remains `true` — contradicting the claim
that every such path sets `isActive = false` before returning. -/
theorem getBiginToken_refresh_failure_keeps_active :
    (getBiginToken 1000000 RefreshHttp.httpError
      (some expiredNoRefreshState)).1 = TokenResult.got none ∧
    (getBiginToken 1000000 RefreshHttp.httpError
      (some expiredNoRefreshState)).2 = some expiredNoRefreshState ∧
    expiredNoRefreshState.isActive = true ∧
    (1000000 : Int) > expiredNoRefreshState.tokenExpiresAt.getD 0 -
      5 * 60 * 1000 := by
  decide

/-- C4 (amended): in the library token manager `getAccessToken`
(src/src/lib/bigin/index.ts) every failed refresh attempt — missing refresh
token, non-OK refresh response, missing `access_token` in the body, or a
thrown call — flips the provider's `isActive` to `false` before the path
returns, and no token is handed out.  (The worker-local copies do not share
this guarantee: `getBiginToken` never deactivates, see the counterexample.) -/
theorem getAccessToken_refresh_failure_deactivates
    (now : Int) (outcome : RefreshHttp) (s : IntegrationState) (tok : String)
    (hact : s.isActive = true) (htok : s.accessToken = some tok)
    (hexp : now > s.tokenExpiresAt.getD 0 - 5 * 60 * 1000)
    (hfail : s.refreshToken = none ∨ refreshFails outcome = true) :
    (getAccessToken now outcome (some s)).1 = none ∧
    ∃ s2, (getAccessToken now outcome (some s)).2 = some s2 ∧
      s2.isActive = false := by
  unfold getAccessToken
  simp only [hact, htok, Bool.not_true, Bool.false_eq_true, if_false,
    if_pos hexp]
  rcases hrt : s.refreshToken with - | rt
  · exact ⟨rfl, _, rfl, rfl⟩
  · have hfail2 : refreshFails outcome = true := by
      rcases hfail with h | h
      · rw [hrt] at h; exact absurd h (by simp)
      · exact h
    cases outcome with
    | threw => exact ⟨rfl, _, rfl, rfl⟩
    | httpError => exact ⟨rfl, _, rfl, rfl⟩
    | ok tok2 exp2 =>
      cases tok2 with
      | none => exact ⟨rfl, _, rfl, rfl⟩
      | some t => simp [refreshFails] at hfail2

/-- C8: when no prep block for the lead exists yet, the saga's
`schedulePrepWork` creates exactly one prep calendar event, ending 15
minutes before the matched appointment start `S` and starting the
configured `P` minutes before that end, sets the task's deadline to `S` and
its status to `scheduled`, and a retry that finds the prep event through
the `callbackPrepLeadId` metadata marker changes nothing.  In particular
for `S = 2025-03-20T14:00:00Z` and `P = 90` the block ends
2025-03-20T13:45:00Z and starts 2025-03-20T12:15:00Z. -/
theorem schedulePrepWork_prep_block_and_idempotency
    (S : Int) (P taskId : Nat) (leadId : String)
    (events : List CalendarEvent) (nextId : Nat) (tasks : List Task)
    (hnoprep : ∀ e ∈ events,
      ¬(e.source = "ai_planned" ∧ e.metaCallbackPrepLeadId = some leadId))
    (htask : ∃ t ∈ tasks, t.id = taskId) :
    (schedulePrepWork taskId leadId P S events nextId tasks).1.countP
      (fun e => e.source = "ai_planned" &&
        e.metaCallbackPrepLeadId = some leadId) = 1 ∧
    (∃ e ∈ (schedulePrepWork taskId leadId P S events nextId tasks).1,
      e.source = "ai_planned" ∧ e.metaCallbackPrepLeadId = some leadId ∧
      e.endTime = S - 15 * 60 * 1000 ∧
      e.startTime = S - 15 * 60 * 1000 - (P : Int) * 60 * 1000 ∧
      e.taskId = some taskId) ∧
    (∃ t ∈ (schedulePrepWork taskId leadId P S events nextId tasks).2.2,
      t.id = taskId ∧ t.deadline = some S ∧ t.status = "scheduled") ∧
    (schedulePrepWork taskId leadId P S
        (schedulePrepWork taskId leadId P S events nextId tasks).1
        (schedulePrepWork taskId leadId P S events nextId tasks).2.1
        (schedulePrepWork taskId leadId P S events nextId tasks).2.2 =
      schedulePrepWork taskId leadId P S events nextId tasks) ∧
    utcMillis 2025 3 20 14 0 0 - 15 * 60 * 1000 =
      utcMillis 2025 3 20 13 45 0 ∧
    utcMillis 2025 3 20 14 0 0 - 15 * 60 * 1000 - (90 : Int) * 60 * 1000 =
      utcMillis 2025 3 20 12 15 0 := by
  have hfind : (events.filter (fun e => e.source = "ai_planned")).find?
      (fun e => e.metaCallbackPrepLeadId = some leadId) = none := by
    rw [List.find?_eq_none]
    intro e he
    rw [List.mem_filter] at he
    have := hnoprep e he.1
    simp only [decide_eq_true_eq] at he ⊢
    intro hmark
    exact this ⟨he.2, hmark⟩
  simp only [schedulePrepWork, hfind]
  refine ⟨?_, ?_, ?_, ?_, by decide, by decide⟩
  · rw [List.countP_append, List.countP_eq_zero.mpr, Nat.zero_add]
    · simp
    · intro e he
      have := hnoprep e he
      simp only [Bool.and_eq_true, decide_eq_true_eq]
      intro hcontra
      exact this hcontra
  · refine ⟨_, List.mem_append_right _ (List.mem_singleton_self _), ?_⟩
    simp
  · obtain ⟨t, ht, hid⟩ := htask
    refine ⟨_, List.mem_map_of_mem _ ht, ?_⟩
    simp [hid]
  · rw [filter_append_singleton_pos _ _ _ (by simp),
      find?_append_right _ _ _ hfind (by simp)]

/-- Witness for C8: the spec scenario — appointment at 2025-03-20T14:00:00Z,
90-minute prep, an empty calendar, a single proposal task with id 1. -/
theorem schedulePrepWork_prep_block_and_idempotency_witness :
    (schedulePrepWork 1 "42" 90 (utcMillis 2025 3 20 14 0 0) [] 10
      [({ id := 1, title := "Prepare proposal for Jane Doe",
          status := "inbox", category := "admin",
          priority := "high" } : Task)]).1.countP
      (fun e => e.source = "ai_planned" &&
        e.metaCallbackPrepLeadId = some "42") = 1 ∧
    (∃ e ∈ (schedulePrepWork 1 "42" 90 (utcMillis 2025 3 20 14 0 0) [] 10
        [({ id := 1, title := "Prepare proposal for Jane Doe",
            status := "inbox", category := "admin",
            priority := "high" } : Task)]).1,
      e.source = "ai_planned" ∧ e.metaCallbackPrepLeadId = some "42" ∧
      e.endTime = utcMillis 2025 3 20 14 0 0 - 15 * 60 * 1000 ∧
      e.startTime = utcMillis 2025 3 20 14 0 0 - 15 * 60 * 1000 -
        (90 : Int) * 60 * 1000 ∧
      e.taskId = some 1) :=
  have h := schedulePrepWork_prep_block_and_idempotency
    (utcMillis 2025 3 20 14 0 0) 90 1 "42" [] 10
    [({ id := 1, title := "Prepare proposal for Jane Doe",
        status := "inbox", category := "admin",
        priority := "high" } : Task)]
    (by simp) ⟨_, List.mem_singleton_self _, rfl⟩
  ⟨h.1, h.2.1⟩

theorem processLead_none_char (cfg : CallbackTriggerConfig) (lead : Lead)
    (st : SRState)
    (h : st.tasks.find? (taskPair ("sr_" ++ lead.id) "salesrabbit") = none) :
    ∃ nt : Task, (processLead cfg lead st).tasks = st.tasks ++ [nt] ∧
      nt.externalId = some ("sr_" ++ lead.id) ∧
      nt.externalSource = some "salesrabbit" ∧
      nt.id = st.nextTaskId ∧
      (processLead cfg lead st).nextTaskId = st.nextTaskId + 1 := by
  simp only [processLead, h]
  split
  · exact ⟨_, rfl, rfl, rfl, rfl, rfl⟩
  · exact ⟨_, rfl, rfl, rfl, rfl, rfl⟩

theorem processLead_some_char (cfg : CallbackTriggerConfig) (lead : Lead)
    (st : SRState) (ex : Task)
    (h : st.tasks.find? (taskPair ("sr_" ++ lead.id) "salesrabbit") =
      some ex) :
    ∃ f : Task → Task, (processLead cfg lead st).tasks = st.tasks.map f ∧
      (∀ t, (f t).externalId = t.externalId ∧
        (f t).externalSource = t.externalSource ∧ (f t).id = t.id) ∧
      (processLead cfg lead st).nextTaskId = st.nextTaskId := by
  simp only [processLead, h]
  split
  · exact ⟨_, List.map_map _ _ _,
      fun t => by by_cases h1 : t.id = ex.id <;> simp [Function.comp, h1],
      rfl⟩
  · refine ⟨_, rfl, ?_, rfl⟩
    intro t
    by_cases h1 : t.id = ex.id <;> simp [h1]

theorem biginDealStep_none_char (deal : BiginDeal) (st : TaskDb)
    (hs1 : deal.Stage ≠ "Closed Won") (hs2 : deal.Stage ≠ "Closed Lost")
    (h : st.tasks.find? (taskPair deal.id "bigin") = none) :
    ∃ nt : Task, (biginDealStep deal st).tasks = st.tasks ++ [nt] ∧
      nt.externalId = some deal.id ∧ nt.externalSource = some "bigin" ∧
      nt.id = st.nextTaskId ∧
      (biginDealStep deal st).nextTaskId = st.nextTaskId + 1 := by
  simp only [biginDealStep, h]
  rw [if_pos (by simp [hs1, hs2])]
  exact ⟨_, rfl, rfl, rfl, rfl, rfl⟩

theorem biginDealStep_some_char (deal : BiginDeal) (st : TaskDb) (ex : Task)
    (h : st.tasks.find? (taskPair deal.id "bigin") = some ex) :
    ∃ f : Task → Task, (biginDealStep deal st).tasks = st.tasks.map f ∧
      (∀ t, (f t).externalId = t.externalId ∧
        (f t).externalSource = t.externalSource ∧ (f t).id = t.id) ∧
      (biginDealStep deal st).nextTaskId = st.nextTaskId := by
  simp only [biginDealStep, h]
  refine ⟨_, rfl, ?_, by trivial⟩
  intro t
  by_cases h1 : t.id = ex.id <;> simp [h1]

theorem taskPair_map_congr {f : Task → Task} (extId src : String)
    (hpres : ∀ t, (f t).externalId = t.externalId ∧
      (f t).externalSource = t.externalSource ∧ (f t).id = t.id) (t : Task) :
    taskPair extId src (f t) = taskPair extId src t := by
  unfold taskPair
  rw [(hpres t).1, (hpres t).2.1]

/-- C7: both task-mirroring sync paths (the SalesRabbit per-lead body and
the Bigin per-deal body) look up `(externalId, externalSource)` before
creating: starting from a store with no row for the pair, the first run
inserts exactly one row and the second run, seeing the same remote record,
updates that row in place — the pair count stays one, the table length is
unchanged, and the row keeps the id assigned at insert.  (For Bigin this is
stated for open stages; closed stages insert nothing at all, see C9.) -/
theorem task_upsert_dedup_by_external_pair :
    (∀ (cfg : CallbackTriggerConfig) (lead : Lead) (st : SRState),
      st.tasks.countP (taskPair ("sr_" ++ lead.id) "salesrabbit") = 0 →
      (processLead cfg lead st).tasks.countP
          (taskPair ("sr_" ++ lead.id) "salesrabbit") = 1 ∧
        (processLead cfg lead (processLead cfg lead st)).tasks.countP
          (taskPair ("sr_" ++ lead.id) "salesrabbit") = 1 ∧
        (processLead cfg lead (processLead cfg lead st)).tasks.length =
          (processLead cfg lead st).tasks.length ∧
        ∃ t ∈ (processLead cfg lead (processLead cfg lead st)).tasks,
          taskPair ("sr_" ++ lead.id) "salesrabbit" t = true ∧
          t.id = st.nextTaskId) ∧
    (∀ (deal : BiginDeal) (st : TaskDb), deal.Stage ≠ "Closed Won" →
      deal.Stage ≠ "Closed Lost" →
      st.tasks.countP (taskPair deal.id "bigin") = 0 →
      (biginDealStep deal st).tasks.countP (taskPair deal.id "bigin") = 1 ∧
        (biginDealStep deal (biginDealStep deal st)).tasks.countP
          (taskPair deal.id "bigin") = 1 ∧
        (biginDealStep deal (biginDealStep deal st)).tasks.length =
          (biginDealStep deal st).tasks.length ∧
        ∃ t ∈ (biginDealStep deal (biginDealStep deal st)).tasks,
          taskPair deal.id "bigin" t = true ∧ t.id = st.nextTaskId) := by
  constructor
  · intro cfg lead st h0
    have hfind : st.tasks.find?
        (taskPair ("sr_" ++ lead.id) "salesrabbit") = none := by
      rw [List.find?_eq_none]
      intro x hx
      have := List.countP_eq_zero.mp h0 x hx
      simpa using this
    obtain ⟨nt, htasks, hext, hsrc, hid, -⟩ :=
      processLead_none_char cfg lead st hfind
    have hpnt : taskPair ("sr_" ++ lead.id) "salesrabbit" nt = true := by
      simp [taskPair, hext, hsrc]
    have hcount1 : (processLead cfg lead st).tasks.countP
        (taskPair ("sr_" ++ lead.id) "salesrabbit") = 1 := by
      rw [htasks, List.countP_append, h0, List.countP_singleton, hpnt]
      rfl
    have hfind2 : (processLead cfg lead st).tasks.find?
        (taskPair ("sr_" ++ lead.id) "salesrabbit") = some nt := by
      rw [htasks]
      exact find?_append_right _ _ _ hfind hpnt
    obtain ⟨f, htasks2, hpres, -⟩ :=
      processLead_some_char cfg lead _ nt hfind2
    refine ⟨hcount1, ?_, ?_, ?_⟩
    · rw [htasks2,
        countP_map_congr f _ _ (taskPair_map_congr _ _ hpres), hcount1]
    · rw [htasks2, List.length_map]
    · refine ⟨f nt, ?_, ?_, ?_⟩
      · rw [htasks2]
        exact List.mem_map_of_mem f
          (List.mem_of_find?_eq_some hfind2)
      · rw [taskPair_map_congr _ _ hpres nt]
        exact hpnt
      · rw [(hpres nt).2.2, hid]
  · intro deal st hs1 hs2 h0
    have hfind : st.tasks.find? (taskPair deal.id "bigin") = none := by
      rw [List.find?_eq_none]
      intro x hx
      have := List.countP_eq_zero.mp h0 x hx
      simpa using this
    obtain ⟨nt, htasks, hext, hsrc, hid, -⟩ :=
      biginDealStep_none_char deal st hs1 hs2 hfind
    have hpnt : taskPair deal.id "bigin" nt = true := by
      simp [taskPair, hext, hsrc]
    have hcount1 : (biginDealStep deal st).tasks.countP
        (taskPair deal.id "bigin") = 1 := by
      rw [htasks, List.countP_append, h0, List.countP_singleton, hpnt]
      rfl
    have hfind2 : (biginDealStep deal st).tasks.find?
        (taskPair deal.id "bigin") = some nt := by
      rw [htasks]
      exact find?_append_right _ _ _ hfind hpnt
    obtain ⟨f, htasks2, hpres, -⟩ := biginDealStep_some_char deal _ nt hfind2
    refine ⟨hcount1, ?_, ?_, ?_⟩
    · rw [htasks2,
        countP_map_congr f _ _ (taskPair_map_congr _ _ hpres), hcount1]
    · rw [htasks2, List.length_map]
    · refine ⟨f nt, ?_, ?_, ?_⟩
      · rw [htasks2]
        exact List.mem_map_of_mem f (List.mem_of_find?_eq_some hfind2)
      · rw [taskPair_map_congr _ _ hpres nt]
        exact hpnt
      · rw [(hpres nt).2.2, hid]

/-- Witness for C7: the scenario pair — lead 42 giving
`("sr_42", "salesrabbit")` on an empty store, and open deal `d4` giving
`("d4", "bigin")` on an empty store. -/
theorem task_upsert_dedup_by_external_pair_witness :
    ((processLead DEFAULT_CALLBACK_CONFIG lead42 emptySRState).tasks.countP
        (taskPair "sr_42" "salesrabbit") = 1 ∧
      (processLead DEFAULT_CALLBACK_CONFIG lead42
          (processLead DEFAULT_CALLBACK_CONFIG lead42
            emptySRState)).tasks.countP
        (taskPair "sr_42" "salesrabbit") = 1 ∧
      (processLead DEFAULT_CALLBACK_CONFIG lead42
          (processLead DEFAULT_CALLBACK_CONFIG lead42
            emptySRState)).tasks.length =
        (processLead DEFAULT_CALLBACK_CONFIG lead42
          emptySRState).tasks.length ∧
      ∃ t ∈ (processLead DEFAULT_CALLBACK_CONFIG lead42
          (processLead DEFAULT_CALLBACK_CONFIG lead42 emptySRState)).tasks,
        taskPair "sr_42" "salesrabbit" t = true ∧
        t.id = emptySRState.nextTaskId) ∧
    ((biginDealStep dealNegotiation emptyTaskDb).tasks.countP
        (taskPair "d4" "bigin") = 1 ∧
      (biginDealStep dealNegotiation
          (biginDealStep dealNegotiation emptyTaskDb)).tasks.countP
        (taskPair "d4" "bigin") = 1 ∧
      (biginDealStep dealNegotiation
          (biginDealStep dealNegotiation emptyTaskDb)).tasks.length =
        (biginDealStep dealNegotiation emptyTaskDb).tasks.length ∧
      ∃ t ∈ (biginDealStep dealNegotiation
          (biginDealStep dealNegotiation emptyTaskDb)).tasks,
        taskPair "d4" "bigin" t = true ∧ t.id = emptyTaskDb.nextTaskId) :=
  ⟨task_upsert_dedup_by_external_pair.1 DEFAULT_CALLBACK_CONFIG lead42
      emptySRState (by decide),
   task_upsert_dedup_by_external_pair.2 dealNegotiation emptyTaskDb
      (by decide) (by decide) (by decide)⟩

theorem pushFold_createCalls (L : List CalendarEvent) (st : PushState) :
    (L.foldl (fun st e => if e.googleEventId.isSome then st
        else pushEventToGoogle e st) st).createCalls =
      st.createCalls ++ L.filterMap (fun e =>
        if e.googleEventId.isSome then none else some e.id) := by
  induction L generalizing st with
  | nil => simp
  | cons x xs ih =>
    by_cases hx : x.googleEventId.isSome
    · simp [hx, ih, List.filterMap_cons]
    · rw [List.foldl_cons, if_neg hx, ih, List.filterMap_cons, if_neg hx]
      simp [pushEventToGoogle]

theorem pushFold_ids (L : List CalendarEvent) (st : PushState) :
    ((L.foldl (fun st e => if e.googleEventId.isSome then st
        else pushEventToGoogle e st) st).events).map CalendarEvent.id =
      st.events.map CalendarEvent.id := by
  induction L generalizing st with
  | nil => rfl
  | cons x xs ih =>
    by_cases hx : x.googleEventId.isSome
    · simp [hx, ih]
    · rw [List.foldl_cons, if_neg hx, ih]
      simp only [pushEventToGoogle]
      rw [List.map_map]
      apply List.map_congr_left
      intro a _
      by_cases h1 : a.id = x.id <;> simp [Function.comp, h1]

theorem pushFold_gid_stable (L : List CalendarEvent) (st : PushState)
    (i : Nat) (h : ∃ x ∈ st.events, x.id = i ∧ x.googleEventId.isSome) :
    ∃ x ∈ (L.foldl (fun st e => if e.googleEventId.isSome then st
        else pushEventToGoogle e st) st).events,
      x.id = i ∧ x.googleEventId.isSome := by
  induction L generalizing st with
  | nil => simpa using h
  | cons y ys ih =>
    apply ih
    by_cases hy : y.googleEventId.isSome
    · simpa [hy] using h
    · obtain ⟨x, hx, hxi, hxg⟩ := h
      dsimp only
      rw [if_neg hy]
      simp only [pushEventToGoogle]
      refine ⟨_, List.mem_map_of_mem _ hx, ?_⟩
      by_cases h1 : x.id = y.id
      · rw [if_pos h1]
        exact ⟨hxi, rfl⟩
      · rw [if_neg h1]
        exact ⟨hxi, hxg⟩

theorem pushFold_id_present (L : List CalendarEvent) (st : PushState)
    (i : Nat) (h : ∃ x ∈ st.events, x.id = i) :
    ∃ x ∈ (L.foldl (fun st e => if e.googleEventId.isSome then st
        else pushEventToGoogle e st) st).events, x.id = i := by
  induction L generalizing st with
  | nil => simpa using h
  | cons y ys ih =>
    apply ih
    by_cases hy : y.googleEventId.isSome
    · simpa [hy] using h
    · obtain ⟨x, hx, hxi⟩ := h
      dsimp only
      rw [if_neg hy]
      simp only [pushEventToGoogle]
      refine ⟨_, List.mem_map_of_mem _ hx, ?_⟩
      by_cases h1 : x.id = y.id
      · rw [if_pos h1]
        exact hxi
      · rw [if_neg h1]
        exact hxi

theorem pushFold_sets_gid (L : List CalendarEvent) (st : PushState)
    (e : CalendarEvent) (he : e ∈ L) (hg : e.googleEventId.isSome = false)
    (hex : ∃ x ∈ st.events, x.id = e.id) :
    ∃ x ∈ (L.foldl (fun st e => if e.googleEventId.isSome then st
        else pushEventToGoogle e st) st).events,
      x.id = e.id ∧ x.googleEventId.isSome := by
  induction L generalizing st with
  | nil => cases he
  | cons y ys ih =>
    rcases List.mem_cons.mp he with hey | hey
    · subst hey
      rw [List.foldl_cons]
      apply pushFold_gid_stable
      obtain ⟨x, hx, hxi⟩ := hex
      try dsimp only
      rw [if_neg (by simp [hg])]
      simp only [pushEventToGoogle]
      refine ⟨_, List.mem_map_of_mem _ hx, ?_⟩
      rw [if_pos hxi]
      exact ⟨hxi, rfl⟩
    · apply ih _ hey
      by_cases hy : y.googleEventId.isSome
      · simpa [hy] using hex
      · obtain ⟨x, hx, hxi⟩ := hex
        dsimp only
        rw [if_neg hy]
        simp only [pushEventToGoogle]
        refine ⟨_, List.mem_map_of_mem _ hx, ?_⟩
        by_cases h1 : x.id = y.id
        · rw [if_pos h1]
          exact hxi
        · rw [if_neg h1]
          exact hxi

/-- C6: for a local `ai_planned` event in the sync horizon with no remote
id, running the push phase twice issues exactly one remote create call for
it in total: after the first run the row carries a remote id, and the
second run issues zero create calls for it. -/
theorem push_twice_single_create (sD eD : Int) (events : List CalendarEvent)
    (rs : Nat) (e : CalendarEvent)
    (hnd : (events.map CalendarEvent.id).Nodup)
    (he : e ∈ events) (hsrc : e.source = "ai_planned")
    (hh1 : sD ≤ e.startTime) (hh2 : e.startTime < eD)
    (hgid : e.googleEventId = none) :
    (fullSyncPush sD eD events rs).createCalls.count e.id = 1 ∧
    (∃ x ∈ (fullSyncPush sD eD events rs).events,
      x.id = e.id ∧ x.googleEventId.isSome) ∧
    (fullSyncPush sD eD (fullSyncPush sD eD events rs).events
      (fullSyncPush sD eD events rs).nextRemoteSeq).createCalls.count
        e.id = 0 := by
  have hsnap : e ∈ events.filter (fun x => x.source = "ai_planned" &&
      sD ≤ x.startTime && x.startTime < eD) := by
    rw [List.mem_filter]
    exact ⟨he, by simp [hsrc, hh1, hh2]⟩
  have hwitness : ∃ x ∈ (fullSyncPush sD eD events rs).events,
      x.id = e.id ∧ x.googleEventId.isSome := by
    unfold fullSyncPush
    exact pushFold_sets_gid _ _ e hsnap (by simp [hgid]) ⟨e, he, rfl⟩
  have hids : (fullSyncPush sD eD events rs).events.map CalendarEvent.id =
      events.map CalendarEvent.id := by
    unfold fullSyncPush
    exact pushFold_ids _ _
  refine ⟨?_, hwitness, ?_⟩
  · unfold fullSyncPush
    rw [pushFold_createCalls, List.nil_append, count_filterMap_eq_countP,
      List.countP_filter]
    have hle : events.countP (fun x =>
        (if x.googleEventId.isSome then none else some x.id) = some e.id &&
        (x.source = "ai_planned" && sD ≤ x.startTime &&
          x.startTime < eD)) ≤
        events.countP (fun x => x.id = e.id) := by
      apply List.countP_mono_left
      intro a _ hp
      simp only [Bool.and_eq_true, decide_eq_true_eq] at hp
      rcases hfa : a.googleEventId.isSome with - | -
      · rw [hfa] at hp
        simp only [if_false, Bool.false_eq_true] at hp
        simp [Option.some.injEq] at hp
        simp [hp.1]
      · rw [hfa] at hp
        simp at hp
    have hone : events.countP (fun x => x.id = e.id) = 1 := by
      have := countP_id_eq_one CalendarEvent.id events e hnd he
      simpa using this
    have hpos : 0 < events.countP (fun x =>
        (if x.googleEventId.isSome then none else some x.id) = some e.id &&
        (x.source = "ai_planned" && sD ≤ x.startTime &&
          x.startTime < eD)) := by
      rw [List.countP_pos_iff]
      refine ⟨e, he, ?_⟩
      simp [hgid, hsrc, hh1, hh2]
    omega
  · unfold fullSyncPush
    rw [pushFold_createCalls, List.nil_append, count_filterMap_eq_countP,
      List.countP_filter, List.countP_eq_zero]
    intro x hx hp
    simp only [Bool.and_eq_true, decide_eq_true_eq] at hp
    obtain ⟨x0, hx0, hx0i, hx0g⟩ := hwitness
    have hxg : x.googleEventId.isSome = false := by
      rcases hfa : x.googleEventId.isSome with - | -
      · rfl
      · rw [hfa] at hp
        simp at hp
    have hxi : x.id = e.id := by
      rw [hxg] at hp
      simp only [if_false, Bool.false_eq_true] at hp
      simpa using hp.1
    have hnd2 : ((fullSyncPush sD eD events rs).events.map
        CalendarEvent.id).Nodup := by
      rw [hids]; exact hnd
    have : x = x0 :=
      List.inj_on_of_nodup_map hnd2 hx hx0 (by rw [hxi, hx0i])
    rw [this] at hxg
    rw [hx0g] at hxg
    cases hxg

/-- Witness for C6: the single unpushed `ai_planned` event with id 8 in the
2025-03-21 .. 2025-03-29 horizon. -/
theorem push_twice_single_create_witness :
    (fullSyncPush (utcMillis 2025 3 21 0 0 0) (utcMillis 2025 3 29 0 0 0)
      [unpushedPlannedEvent] 0).createCalls.count
        unpushedPlannedEvent.id = 1 ∧
    (∃ x ∈ (fullSyncPush (utcMillis 2025 3 21 0 0 0)
        (utcMillis 2025 3 29 0 0 0) [unpushedPlannedEvent] 0).events,
      x.id = unpushedPlannedEvent.id ∧ x.googleEventId.isSome) ∧
    (fullSyncPush (utcMillis 2025 3 21 0 0 0) (utcMillis 2025 3 29 0 0 0)
      (fullSyncPush (utcMillis 2025 3 21 0 0 0)
        (utcMillis 2025 3 29 0 0 0) [unpushedPlannedEvent] 0).events
      (fullSyncPush (utcMillis 2025 3 21 0 0 0)
        (utcMillis 2025 3 29 0 0 0)
        [unpushedPlannedEvent] 0).nextRemoteSeq).createCalls.count
      unpushedPlannedEvent.id = 0 :=
  push_twice_single_create (utcMillis 2025 3 21 0 0 0)
    (utcMillis 2025 3 29 0 0 0) [unpushedPlannedEvent] 0
    unpushedPlannedEvent (by decide) (List.mem_singleton_self _) rfl
    (by decide) (by decide) rfl

theorem pushFold_preserves_row (L : List CalendarEvent) (st : PushState)
    (b : CalendarEvent) (hb : b ∈ st.events)
    (hids : ∀ e ∈ L, e.id ≠ b.id) :
    b ∈ (L.foldl (fun st e => if e.googleEventId.isSome then st
        else pushEventToGoogle e st) st).events := by
  induction L generalizing st with
  | nil => simpa using hb
  | cons y ys ih =>
    rw [List.foldl_cons]
    apply ih
    · by_cases hy : y.googleEventId.isSome
      · rw [if_pos hy]
        exact hb
      · rw [if_neg hy]
        simp only [pushEventToGoogle]
        refine List.mem_map.mpr ⟨b, hb, ?_⟩
        rw [if_neg (fun hcontra => hids y (by simp) hcontra.symm)]
    · intro e hey
      exact hids e (by simp [hey])

theorem purePushFold_ids (L : List CalendarEvent) (st : PushState) :
    ((L.foldl (fun st e => pushEventToGoogle e st) st).events).map
      CalendarEvent.id = st.events.map CalendarEvent.id := by
  induction L generalizing st with
  | nil => rfl
  | cons x xs ih =>
    rw [List.foldl_cons, ih]
    simp only [pushEventToGoogle]
    rw [List.map_map]
    apply List.map_congr_left
    intro a _
    by_cases h1 : a.id = x.id <;> simp [Function.comp, h1]

theorem purePushFold_id_present (L : List CalendarEvent) (st : PushState)
    (i : Nat) (h : ∃ x ∈ st.events, x.id = i) :
    ∃ x ∈ (L.foldl (fun st e => pushEventToGoogle e st) st).events,
      x.id = i := by
  induction L generalizing st with
  | nil => simpa using h
  | cons y ys ih =>
    rw [List.foldl_cons]
    apply ih
    obtain ⟨x, hx, hxi⟩ := h
    try dsimp only
    simp only [pushEventToGoogle]
    refine ⟨_, List.mem_map_of_mem _ hx, ?_⟩
    by_cases h1 : x.id = y.id
    · rw [if_pos h1]
      exact hxi
    · rw [if_neg h1]
      exact hxi

theorem purePushFold_preserves_row (L : List CalendarEvent) (st : PushState)
    (b : CalendarEvent) (hb : b ∈ st.events)
    (hids : ∀ e ∈ L, e.id ≠ b.id) :
    b ∈ (L.foldl (fun st e => pushEventToGoogle e st) st).events := by
  induction L generalizing st with
  | nil => simpa using hb
  | cons y ys ih =>
    rw [List.foldl_cons]
    apply ih
    · try dsimp only
      simp only [pushEventToGoogle]
      refine List.mem_map.mpr ⟨b, hb, ?_⟩
      rw [if_neg (fun hcontra => hids y (by simp) hcontra.symm)]
    · intro e hey
      exact hids e (by simp [hey])

/-- Case analysis of the worker pull step: the state is unchanged, or one
mirror matched by remote id is rewritten in place (ids preserved, all other
rows untouched), or one new mirror is appended under the fresh id. -/
theorem gcalSyncPullStep_cases (st : GcalJobPullState) (g : GoogleEvent) :
    gcalSyncPullStep st g = st ∨
    (∃ (f : CalendarEvent → CalendarEvent) (ex : CalendarEvent)
      (gid : String), g.id = some gid ∧ ex ∈ st.events ∧
      ex.googleEventId = some gid ∧
      (gcalSyncPullStep st g).events = st.events.map f ∧
      (gcalSyncPullStep st g).nextId = st.nextId ∧
      (∀ x, (f x).id = x.id) ∧ (∀ x, x.id ≠ ex.id → f x = x)) ∨
    (∃ m : CalendarEvent, (gcalSyncPullStep st g).events =
      st.events ++ [m] ∧ m.id = st.nextId ∧
      (gcalSyncPullStep st g).nextId = st.nextId + 1) := by
  unfold gcalSyncPullStep
  split
  · exact Or.inl rfl
  split
  case h_2 => exact Or.inl rfl
  split
  · exact Or.inl rfl
  split
  case h_1 => exact Or.inl rfl
  case h_2 gid heqgid =>
    split
    case h_1 ex heqfind =>
      dsimp only
      split
      case isTrue =>
        refine Or.inr (Or.inl ⟨_, ex, gid, heqgid, 
          List.mem_of_find?_eq_some heqfind, ?_, rfl, rfl, ?_, ?_⟩)
        · have := List.find?_some heqfind
          simpa using this
        · intro x
          try dsimp only
          split <;> rfl
        · intro x hx
          try dsimp only
          rw [if_neg hx]
      case isFalse => exact Or.inl rfl
    case h_2 => exact Or.inr (Or.inr ⟨_, rfl, rfl, rfl⟩)

theorem gcalPullFold_id_present (remote : List GoogleEvent)
    (st : GcalJobPullState) (i : Nat) (h : ∃ x ∈ st.events, x.id = i) :
    ∃ x ∈ (remote.foldl gcalSyncPullStep st).events, x.id = i := by
  refine foldl_induction gcalSyncPullStep
    (fun s => ∃ x ∈ s.events, x.id = i) remote st h ?_
  intro t g _ ht
  obtain ⟨x, hx, hxi⟩ := ht
  rcases gcalSyncPullStep_cases t g with hsh |
      ⟨f, ex, gid, -, -, -, hsh, -, hf, -⟩ | ⟨m, hsh, -, -⟩
  · rw [hsh]
    exact ⟨x, hx, hxi⟩
  · rw [hsh]
    exact ⟨f x, List.mem_map_of_mem f hx, (hf x).trans hxi⟩
  · rw [hsh]
    exact ⟨x, List.mem_append_left _ hx, hxi⟩

/-- Invariant step of the worker pull loop: distinct row ids stay distinct,
ids stay below the fresh-id counter, and a row whose remote id the remote
event does not carry stays in the table untouched. -/
theorem gcalSyncPullStep_untouched (st : GcalJobPullState) (g : GoogleEvent)
    (b : CalendarEvent)
    (hinv : (st.events.map CalendarEvent.id).Nodup ∧
      ∀ e ∈ st.events, e.id < st.nextId)
    (hb : b ∈ st.events)
    (hgid : ∀ h, b.googleEventId = some h → g.id ≠ some h) :
    ((gcalSyncPullStep st g).events.map CalendarEvent.id).Nodup ∧
    (∀ e ∈ (gcalSyncPullStep st g).events,
      e.id < (gcalSyncPullStep st g).nextId) ∧
    b ∈ (gcalSyncPullStep st g).events := by
  obtain ⟨hnd, hlt⟩ := hinv
  rcases gcalSyncPullStep_cases st g with hsh |
      ⟨f, ex, gid, hgg, hexmem, hexgid, hev, hnx, hfid, hfother⟩ |
      ⟨m, hev, hmid, hnx⟩
  · rw [hsh]
    exact ⟨hnd, hlt, hb⟩
  · have hids : (gcalSyncPullStep st g).events.map CalendarEvent.id =
        st.events.map CalendarEvent.id := by
      rw [hev, List.map_map]
      apply List.map_congr_left
      intro a _
      exact hfid a
    refine ⟨hids ▸ hnd, ?_, ?_⟩
    · intro e he
      rw [hev] at he
      obtain ⟨x, hx, hxe⟩ := List.mem_map.mp he
      rw [hnx, ← hxe, hfid x]
      exact hlt x hx
    · have hbex : b ≠ ex := by
        intro hcontra
        rcases hbg : b.googleEventId with - | h2
        · rw [hcontra, hexgid] at hbg
          cases hbg
        · apply hgid h2 hbg
          rw [hgg]
          rw [hcontra, hexgid] at hbg
          rw [Option.some.injEq] at hbg
          rw [hbg]
      have hbid : b.id ≠ ex.id := by
        intro hcontra
        exact hbex (List.inj_on_of_nodup_map hnd hb hexmem hcontra)
      rw [hev]
      refine List.mem_map.mpr ⟨b, hb, ?_⟩
      rw [hfother b hbid]
  · refine ⟨?_, ?_, ?_⟩
    · rw [hev, List.map_append]
      simp only [List.map_cons, List.map_nil]
      rw [List.nodup_append]
      refine ⟨hnd, List.nodup_singleton _, ?_⟩
      intro a ha hmem
      rw [List.mem_singleton] at hmem
      obtain ⟨e, he, hei⟩ := List.mem_map.mp ha
      rw [hmem, hmid] at hei
      have := hlt e he
      omega
    · intro e he
      rw [hev] at he
      rw [hnx]
      rcases List.mem_append.mp he with he | he
      · have := hlt e he
        omega
      · rw [List.mem_singleton] at he
        rw [he, hmid]
        omega
    · rw [hev]
      exact List.mem_append_left _ hb

/-- C10: the recurring worker-side calendar sync job deletes no local
`calendarEvents` row: every row id present before the run is present after
it, and any row that is not an `ai_planned` event and whose remote id is
absent from the pulled listing — in particular a blocker mirror of a
remotely deleted event — is left in the table completely unchanged. -/
theorem runGoogleCalendarSync_no_deletes (sD eD : Int)
    (remote : List GoogleEvent) (events : List CalendarEvent)
    (nextId remoteSeq : Nat)
    (hnd : (events.map CalendarEvent.id).Nodup)
    (hfresh : ∀ e ∈ events, e.id < nextId) :
    (∀ e ∈ events, ∃ x ∈ (runGoogleCalendarSync sD eD remote events nextId
      remoteSeq).1, x.id = e.id) ∧
    (∀ b ∈ events, b.source ≠ "ai_planned" →
      (∀ h, b.googleEventId = some h →
        h ∉ remote.filterMap GoogleEvent.id) →
      b ∈ (runGoogleCalendarSync sD eD remote events nextId
        remoteSeq).1) := by
  constructor
  · intro e he
    unfold runGoogleCalendarSync
    apply gcalPullFold_id_present
    apply purePushFold_id_present
    exact ⟨e, he, rfl⟩
  · intro b hb hbsrc hbgid
    unfold runGoogleCalendarSync
    have hbpush : b ∈ ((events.filter (fun e => e.source = "ai_planned")
        |>.filter (fun e => !e.googleEventId.isSome &&
          sD ≤ e.startTime && e.startTime < eD)).foldl
        (fun st e => pushEventToGoogle e st)
        { events := events, createCalls := [], nextRemoteSeq := remoteSeq,
          pushed := 0 }).events := by
      apply purePushFold_preserves_row
      · exact hb
      intro y hy hcontra
      rw [List.mem_filter] at hy
      obtain ⟨hy1, -⟩ := hy
      rw [List.mem_filter] at hy1
      obtain ⟨hymem, hysrc⟩ := hy1
      have : y = b := List.inj_on_of_nodup_map hnd hymem hb hcontra
      rw [this] at hysrc
      simp only [decide_eq_true_eq] at hysrc
      exact hbsrc hysrc
    have hids2 : (((events.filter (fun e => e.source = "ai_planned")
        |>.filter (fun e => !e.googleEventId.isSome &&
          sD ≤ e.startTime && e.startTime < eD)).foldl
        (fun st e => pushEventToGoogle e st)
        { events := events, createCalls := [], nextRemoteSeq := remoteSeq,
          pushed := 0 }).events).map CalendarEvent.id =
        events.map CalendarEvent.id := purePushFold_ids _ _
    refine (foldl_induction gcalSyncPullStep
      (fun s => ((s.events.map CalendarEvent.id).Nodup ∧
        ∀ e ∈ s.events, e.id < s.nextId) ∧ b ∈ s.events)
      remote _ ⟨⟨?_, ?_⟩, hbpush⟩ ?_).2
    · rw [hids2]
      exact hnd
    · intro e he
      have hmem : e.id ∈ events.map CalendarEvent.id := by
        rw [← hids2]
        exact List.mem_map_of_mem _ he
      obtain ⟨x, hx, hxe⟩ := List.mem_map.mp hmem
      rw [← hxe]
      exact hfresh x hx
    · intro t g hg hP
      obtain ⟨hinv, hbt⟩ := hP
      have hstep := gcalSyncPullStep_untouched t g b hinv hbt ?_
      · exact ⟨⟨hstep.1, hstep.2.1⟩, hstep.2.2⟩
      · intro h hbh hcontra
        rcases hgi : g.id with - | gi
        · rw [hgi] at hcontra
          cases hcontra
        · rw [hgi] at hcontra
          rw [Option.some.injEq] at hcontra
          apply hbgid h hbh
          rw [← hcontra]
          exact List.mem_filterMap.mpr ⟨g, hg, hgi⟩

/-- Witness for C10: one stale blocker mirror (remote id "g-old") and a
remote listing containing only "g1": the mirror's id survives the run and
the mirror row itself is untouched. -/
theorem runGoogleCalendarSync_no_deletes_witness :
    (∃ x ∈ (runGoogleCalendarSync (utcMillis 2025 3 21 0 0 0)
        (utcMillis 2025 3 29 0 0 0) [remoteEventG1] [staleMirror] 10 0).1,
      x.id = staleMirror.id) ∧
    staleMirror ∈ (runGoogleCalendarSync (utcMillis 2025 3 21 0 0 0)
      (utcMillis 2025 3 29 0 0 0) [remoteEventG1] [staleMirror] 10 0).1 :=
  have h := runGoogleCalendarSync_no_deletes (utcMillis 2025 3 21 0 0 0)
    (utcMillis 2025 3 29 0 0 0) [remoteEventG1] [staleMirror] 10 0
    (by decide) (by decide)
  ⟨h.1 staleMirror (List.mem_singleton_self _),
   h.2 staleMirror (List.mem_singleton_self _) (by decide) (by
    intro h2 hh
    rw [show staleMirror.googleEventId = some "g-old" from rfl,
      Option.some.injEq] at hh
    subst hh
    decide)⟩

/-- C9 counterexample: a remote lead record in the terminal status
"Not Interested" with no matching local task.  The claim says the sync
creates no new Task for closed/terminal remote records, but the SalesRabbit
per-lead body inserts a task for every lead regardless of status: on an
empty store, lead `{id: "77", statusName: "Not Interested"}` yields one new
task mirroring `("sr_77", "salesrabbit")`.  (The same holds for
"Sale Made"; only the Bigin deal sync has a closed-stage guard.) -/
theorem salesrabbit_imports_terminal_status_lead :
    (processLead DEFAULT_CALLBACK_CONFIG leadNotInterested
      emptySRState).tasks.length = 1 ∧
    (processLead DEFAULT_CALLBACK_CONFIG leadNotInterested
      emptySRState).tasks.countP (taskPair "sr_77" "salesrabbit") = 1 := by
  decide

/-- C9 (amended): the closed-stage import guard lives in the Bigin CRM deal
sync only: a deal in stage "Closed Won" or "Closed Lost" with no matching
local task leaves the store untouched (no new Task), while a deal with a
matching task is still updated in place.  The SalesRabbit lead sync has no
such guard (see the counterexample). -/
theorem bigin_closed_stage_guard (deal : BiginDeal) (st : TaskDb)
    (hclosed : deal.Stage = "Closed Won" ∨ deal.Stage = "Closed Lost") :
    (st.tasks.countP (taskPair deal.id "bigin") = 0 →
      biginDealStep deal st = st) ∧
    (∀ ex, st.tasks.find? (taskPair deal.id "bigin") = some ex →
      (biginDealStep deal st).tasks.length = st.tasks.length ∧
      ∃ t ∈ (biginDealStep deal st).tasks, taskPair deal.id "bigin" t = true ∧
        t.title = deal.Stage ++ ": " ++ deal.Deal_Name ∧
        t.meta.biginStage = some deal.Stage) := by
  constructor
  · intro h0
    have hfind : st.tasks.find? (taskPair deal.id "bigin") = none := by
      rw [List.find?_eq_none]
      intro x hx
      have := List.countP_eq_zero.mp h0 x hx
      simpa using this
    simp only [biginDealStep, hfind]
    rcases hclosed with h | h <;> simp [h]
  · intro ex hex
    have hmem : ex ∈ st.tasks := List.mem_of_find?_eq_some hex
    have hpair : taskPair deal.id "bigin" ex = true := List.find?_some hex
    simp only [biginDealStep, hex]
    refine ⟨List.length_map _ _, ?_⟩
    refine ⟨_, List.mem_map_of_mem _ hmem, ?_⟩
    rw [if_pos rfl]
    unfold taskPair at hpair ⊢
    simp only [Bool.and_eq_true, decide_eq_true_eq] at hpair
    refine ⟨?_, rfl, rfl⟩
    simp only [Bool.and_eq_true, decide_eq_true_eq]
    exact ⟨hpair.1, hpair.2⟩

/-- Witness for C9 (amended): the "Closed Won" deal `d9` creates nothing on
an empty store and updates the existing mirror task in place. -/
theorem bigin_closed_stage_guard_witness :
    biginDealStep dealClosedWon emptyTaskDb = emptyTaskDb ∧
    ((biginDealStep dealClosedWon
        { tasks := [taskForDealD9], nextTaskId := 6 }).tasks.length =
      ({ tasks := [taskForDealD9], nextTaskId := 6 } : TaskDb).tasks.length ∧
      ∃ t ∈ (biginDealStep dealClosedWon
          { tasks := [taskForDealD9], nextTaskId := 6 }).tasks,
        taskPair dealClosedWon.id "bigin" t = true ∧
        t.title = dealClosedWon.Stage ++ ": " ++ dealClosedWon.Deal_Name ∧
        t.meta.biginStage = some dealClosedWon.Stage) :=
  ⟨(bigin_closed_stage_guard dealClosedWon emptyTaskDb (Or.inl rfl)).1
      (by decide),
   (bigin_closed_stage_guard dealClosedWon
      { tasks := [taskForDealD9], nextTaskId := 6 } (Or.inl rfl)).2
      taskForDealD9 (by decide)⟩

/-- Witness for C4 (amended): the library token manager applied to the
expired, refresh-token-less Bigin row hands out no token and deactivates
the row. -/
theorem getAccessToken_refresh_failure_deactivates_witness :
    (getAccessToken 1000000 RefreshHttp.httpError
      (some expiredNoRefreshState)).1 = none ∧
    ∃ s2, (getAccessToken 1000000 RefreshHttp.httpError
      (some expiredNoRefreshState)).2 = some s2 ∧ s2.isActive = false :=
  getAccessToken_refresh_failure_deactivates 1000000 RefreshHttp.httpError
    expiredNoRefreshState "token" rfl rfl (by decide) (Or.inl rfl)

theorem pullStep_allIds (c : String) (st : PullState) (g : GoogleEvent) :
    (pullStep c st g).allGoogleEventIds =
      st.allGoogleEventIds ++ (collectContribution g).toList := by
  unfold pullStep
  split
  · rename_i hjoy
    simp [collectContribution, hjoy]
  rename_i hjoy
  split
  case h_2 =>
    rename_i hne
    rcases hsd : g.startDateTime with - | sdt
    · simp [collectContribution, hjoy, hsd]
    rcases hed : g.endDateTime with - | edt
    · simp [collectContribution, hjoy, hsd, hed]
    · exact (hne sdt edt hsd hed).elim
  case h_1 sdt edt hsd hed =>
    split
    · rename_i hcan
      simp [collectContribution, hjoy, hsd, hed, hcan]
    · rename_i hcan
      rcases hgi : g.id with - | gid
      · simp [collectContribution, hjoy, hsd, hed, hcan, hgi]
      · dsimp only
        rcases hfind : st.events.find?
            (fun e => e.googleEventId = some gid) with - | ex
        · rw [hfind]
          simp [collectContribution, hjoy, hsd, hed, hcan, hgi]
        · rw [hfind]
          dsimp only
          split <;> simp [collectContribution, hjoy, hsd, hed, hcan, hgi]

/-- Case analysis of the library pull step: the state is unchanged (apart
from the collected ids), or one mirror matched by remote id is rewritten in
place, or one new mirror is appended under the fresh id. -/
theorem pullStep_cases (c : String) (st : PullState) (g : GoogleEvent) :
    ((pullStep c st g).events = st.events ∧
      (pullStep c st g).nextId = st.nextId) ∨
    (∃ (f : CalendarEvent → CalendarEvent) (ex : CalendarEvent)
      (gid : String), g.id = some gid ∧ ex ∈ st.events ∧
      ex.googleEventId = some gid ∧
      gid ∈ (pullStep c st g).allGoogleEventIds ∧
      (pullStep c st g).events = st.events.map f ∧
      (pullStep c st g).nextId = st.nextId ∧
      (∀ x, (f x).id = x.id) ∧
      (∀ x, (f x).googleEventId = x.googleEventId) ∧
      (∀ x, x.id ≠ ex.id → f x = x)) ∨
    (∃ (m : CalendarEvent) (gid : String), g.id = some gid ∧
      (pullStep c st g).events = st.events ++ [m] ∧
      m.id = st.nextId ∧ (pullStep c st g).nextId = st.nextId + 1 ∧
      m.googleEventId = some gid ∧
      gid ∈ (pullStep c st g).allGoogleEventIds) := by
  unfold pullStep
  split
  · exact Or.inl ⟨rfl, rfl⟩
  split
  case h_2 => exact Or.inl ⟨rfl, rfl⟩
  split
  · exact Or.inl ⟨rfl, rfl⟩
  split
  case h_1 => exact Or.inl ⟨rfl, rfl⟩
  case h_2 gid heqgid =>
    dsimp only
    split
    case h_1 ex heqfind =>
      try dsimp only
      split
      case isTrue =>
        refine Or.inr (Or.inl ⟨_, ex, gid, heqgid,
          List.mem_of_find?_eq_some heqfind, ?_, by simp, rfl, rfl,
          ?_, ?_, ?_⟩)
        · have := List.find?_some heqfind
          simpa using this
        · intro x
          try dsimp only
          split <;> rfl
        · intro x
          try dsimp only
          split <;> rfl
        · intro x hx
          try dsimp only
          rw [if_neg hx]
      case isFalse => exact Or.inl ⟨rfl, rfl⟩
    case h_2 =>
      exact Or.inr (Or.inr ⟨_, gid, heqgid, rfl, rfl, rfl, rfl, by simp⟩)

theorem pullStep_allIds_mono (c : String) (st : PullState) (g : GoogleEvent)
    (x : String) (hx : x ∈ st.allGoogleEventIds) :
    x ∈ (pullStep c st g).allGoogleEventIds := by
  rw [pullStep_allIds]
  exact List.mem_append_left _ hx

theorem pullStep_preserves_inv (c : String) (base : List CalendarEvent)
    (allowed : List String) (st : PullState) (g : GoogleEvent)
    (hgl : ∀ gid, g.id = some gid → gid ∈ allowed)
    (h : PullInv base allowed st) : PullInv base allowed (pullStep c st g)
    := by
  obtain ⟨⟨hnd, hlt⟩, hall, hchar, hpres⟩ := h
  have hallids : ∀ x ∈ (pullStep c st g).allGoogleEventIds, x ∈ allowed := by
    intro x hx
    rw [pullStep_allIds] at hx
    rcases List.mem_append.mp hx with hx | hx
    · exact hall x hx
    · unfold collectContribution at hx
      rcases hgg : g.id with - | gid
      · split at hx
        · cases hx
        · split at hx
          · split at hx
            · cases hx
            · rw [hgg] at hx
              cases hx
          · cases hx
      · have : x = gid := by
          split at hx
          · cases hx
          · split at hx
            · split at hx
              · cases hx
              · rw [hgg] at hx
                simpa using hx
            · cases hx
        rw [this]
        exact hgl gid hgg
  rcases pullStep_cases c st g with ⟨hev, hnx⟩ |
      ⟨f, ex, gid, hgg, hexmem, hexgid, hgidin, hev, hnx, hfid, hfgid,
        hfother⟩ |
      ⟨m, gid, hgg, hev, hmid, hnx, hmgid, hgidin⟩
  · refine ⟨⟨hev ▸ hnd, ?_⟩, hallids, ?_, ?_⟩
    · intro e he
      rw [hev] at he
      rw [hnx]
      exact hlt e he
    · intro e he
      rw [hev] at he
      rcases hchar e he with hl | ⟨h2, hh2, hin⟩
      · exact Or.inl hl
      · exact Or.inr ⟨h2, hh2, pullStep_allIds_mono c st g h2 hin⟩
    · intro b2 hb2 hsafe
      rw [hev]
      exact hpres b2 hb2 hsafe
  · have hids : (pullStep c st g).events.map CalendarEvent.id =
        st.events.map CalendarEvent.id := by
      rw [hev, List.map_map]
      apply List.map_congr_left
      intro a _
      exact hfid a
    refine ⟨⟨hids ▸ hnd, ?_⟩, hallids, ?_, ?_⟩
    · intro e he
      rw [hev] at he
      obtain ⟨x, hx, hxe⟩ := List.mem_map.mp he
      rw [hnx, ← hxe, hfid x]
      exact hlt x hx
    · intro e he
      rw [hev] at he
      obtain ⟨x, hx, hxe⟩ := List.mem_map.mp he
      by_cases hxid : x.id = ex.id
      · have hxex : x = ex := List.inj_on_of_nodup_map hnd hx hexmem hxid
        refine Or.inr ⟨gid, ?_, hgidin⟩
        rw [← hxe, hfgid x, hxex, hexgid]
      · rw [← hxe, hfother x hxid]
        rcases hchar x hx with hl | ⟨h2, hh2, hin⟩
        · exact Or.inl hl
        · exact Or.inr ⟨h2, hh2, pullStep_allIds_mono c st g h2 hin⟩
    · intro b2 hb2 hsafe
      have hb2st : b2 ∈ st.events := hpres b2 hb2 hsafe
      have hb2ex : b2 ≠ ex := by
        intro hcontra
        exact hsafe gid (hcontra ▸ hexgid) (hgl gid hgg)
      have hb2id : b2.id ≠ ex.id := by
        intro hcontra
        exact hb2ex (List.inj_on_of_nodup_map hnd hb2st hexmem hcontra)
      rw [hev]
      refine List.mem_map.mpr ⟨b2, hb2st, ?_⟩
      rw [hfother b2 hb2id]
  · refine ⟨⟨?_, ?_⟩, hallids, ?_, ?_⟩
    · rw [hev, List.map_append]
      simp only [List.map_cons, List.map_nil]
      rw [List.nodup_append]
      refine ⟨hnd, List.nodup_singleton _, ?_⟩
      intro a ha hmem
      rw [List.mem_singleton] at hmem
      obtain ⟨e, he, hei⟩ := List.mem_map.mp ha
      rw [hmem, hmid] at hei
      have := hlt e he
      omega
    · intro e he
      rw [hev] at he
      rw [hnx]
      rcases List.mem_append.mp he with he | he
      · have := hlt e he
        omega
      · rw [List.mem_singleton] at he
        rw [he, hmid]
        omega
    · intro e he
      rw [hev] at he
      rcases List.mem_append.mp he with he | he
      · rcases hchar e he with hl | ⟨h2, hh2, hin⟩
        · exact Or.inl hl
        · exact Or.inr ⟨h2, hh2, pullStep_allIds_mono c st g h2 hin⟩
      · rw [List.mem_singleton] at he
        refine Or.inr ⟨gid, ?_, hgidin⟩
        rw [he]
        exact hmgid
    · intro b2 hb2 hsafe
      rw [hev]
      exact List.mem_append_left _ (hpres b2 hb2 hsafe)

theorem pullPhaseA_inv (listing : List (String × List GoogleEvent))
    (base : List CalendarEvent) (st0 : PullState)
    (h0 : PullInv base (listedIds listing) st0) :
    PullInv base (listedIds listing) (pullPhaseA listing st0) := by
  unfold pullPhaseA
  refine foldl_induction _ (PullInv base (listedIds listing)) listing st0
    h0 ?_
  intro t cal hcal ht
  unfold pullFromCalendar
  refine foldl_induction _ (PullInv base (listedIds listing)) cal.2 t ht ?_
  intro t2 g hgmem ht2
  apply pullStep_preserves_inv _ _ _ _ _ _ ht2
  intro gid hgid
  unfold listedIds
  refine List.mem_filterMap.mpr ⟨g, ?_, hgid⟩
  rw [List.mem_flatten]
  exact ⟨cal.2, List.mem_map_of_mem _ hcal, hgmem⟩

theorem pullPhaseA_allIds (listing : List (String × List GoogleEvent))
    (st0 : PullState) :
    (pullPhaseA listing st0).allGoogleEventIds =
      st0.allGoogleEventIds ++ collectedIds listing := by
  unfold pullPhaseA
  induction listing generalizing st0 with
  | nil => simp [collectedIds]
  | cons cal rest ih =>
    rw [List.foldl_cons, ih]
    have hcal : ∀ (evs : List GoogleEvent) (st : PullState),
        (pullFromCalendar cal.1 evs st).allGoogleEventIds =
          st.allGoogleEventIds ++ evs.filterMap collectContribution := by
      intro evs
      induction evs with
      | nil => intro st; simp [pullFromCalendar]
      | cons g gs ihg =>
        intro st
        unfold pullFromCalendar at ihg ⊢
        rw [List.foldl_cons, ihg, pullStep_allIds, List.filterMap_cons]
        rcases collectContribution g with - | gid <;> simp
    rw [hcal]
    unfold collectedIds
    rw [List.flatMap_cons, ← List.append_assoc]

theorem count_map_eq_countP {α β} [DecidableEq β] (f : α → β) (l : List α)
    (b : β) : (l.map f).count b = l.countP (fun x => f x = b) := by
  induction l with
  | nil => simp
  | cons x xs ih =>
    by_cases hx : f x = b
    · simp [List.count_cons, List.countP_cons, hx, ih]
    · simp [List.count_cons, List.countP_cons, hx, ih, Ne.symm hx]

/-- C5: after a pull over the horizon, a local blocker mirror whose
`startTime` lies in the horizon and whose remote id is absent from the full
set of remote ids returned by the pull's list calls has been deleted,
exactly once (its id appears once in the deletion log and no row with its
id survives), and re-running the pull on the unchanged listings deletes
nothing further. -/
theorem pull_drift_cleanup_stale_mirror (sD eD : Int)
    (listing : List (String × List GoogleEvent))
    (events : List CalendarEvent) (nextId : Nat) (b : CalendarEvent)
    (gb : String)
    (hnd : (events.map CalendarEvent.id).Nodup)
    (hfresh : ∀ e ∈ events, e.id < nextId)
    (hb : b ∈ events) (hsrc : b.source = "google_calendar")
    (hgid : b.googleEventId = some gb)
    (hh1 : sD ≤ b.startTime) (hh2 : b.startTime < eD)
    (habsent : gb ∉ listedIds listing) :
    (pullExternalEvents sD eD listing events nextId).deletedIds.count b.id
      = 1 ∧
    (∀ e ∈ (pullExternalEvents sD eD listing events nextId).events,
      e.id ≠ b.id) ∧
    (pullExternalEvents sD eD listing
      (pullExternalEvents sD eD listing events nextId).events
      (pullExternalEvents sD eD listing events nextId).nextId).deletedIds
      = [] := by
  have hA := pullPhaseA_inv listing events
    { events := events, nextId := nextId, allGoogleEventIds := [],
      imported := 0 }
    ⟨⟨hnd, hfresh⟩, by simp, fun e he => Or.inl he, fun b2 hb2 _ => hb2⟩
  obtain ⟨⟨hnd1, hfresh1⟩, hall1, hchar1, hpres1⟩ := hA
  have hsafe : ∀ h, b.googleEventId = some h → h ∉ listedIds listing := by
    intro h hh
    rw [hgid, Option.some.injEq] at hh
    rw [← hh]
    exact habsent
  have hbmem : b ∈ (pullPhaseA listing
      { events := events, nextId := nextId, allGoogleEventIds := [],
        imported := 0 }).events := hpres1 b hb hsafe
  have hblocker : isJoyBlocker sD eD b = true := by
    simp [isJoyBlocker, hsrc, hh1, hh2, hgid]
  have hallids1 : (pullPhaseA listing
      { events := events, nextId := nextId, allGoogleEventIds := [],
        imported := 0 }).allGoogleEventIds = collectedIds listing := by
    rw [pullPhaseA_allIds]
    rfl
  have hnotin1 : gb ∉ (pullPhaseA listing
      { events := events, nextId := nextId, allGoogleEventIds := [],
        imported := 0 }).allGoogleEventIds := by
    intro hcontra
    exact habsent (hall1 gb hcontra)
  have hcontains : (pullPhaseA listing
      { events := events, nextId := nextId, allGoogleEventIds := [],
        imported := 0 }).allGoogleEventIds.contains gb = false := by
    rw [Bool.eq_false_iff]
    intro hc
    rw [List.elem_iff] at hc
    exact hnotin1 hc
  have hstpred : (fun x : CalendarEvent =>
      match x.googleEventId with
      | some gid => !(pullPhaseA listing
          { events := events, nextId := nextId, allGoogleEventIds := [],
            imported := 0 }).allGoogleEventIds.contains gid
      | none => false) b = true := by
    simp only [hgid]
    rw [hcontains]
    rfl
  have hbstale : b ∈ pullStale sD eD (pullPhaseA listing
      { events := events, nextId := nextId, allGoogleEventIds := [],
        imported := 0 }) := by
    unfold pullStale
    exact List.mem_filter.mpr
      ⟨List.mem_filter.mpr ⟨hbmem, hblocker⟩, hstpred⟩
  have hndstale : ((pullStale sD eD (pullPhaseA listing
      { events := events, nextId := nextId, allGoogleEventIds := [],
        imported := 0 })).map CalendarEvent.id).Nodup := by
    apply hnd1.sublist
    apply List.Sublist.map
    unfold pullStale
    exact (List.filter_sublist _).trans (List.filter_sublist _)
  refine ⟨?_, ?_, ?_⟩
  · show ((pullStale sD eD (pullPhaseA listing
      { events := events, nextId := nextId, allGoogleEventIds := [],
        imported := 0 })).map (fun b => b.id)).count b.id = 1
    rw [count_map_eq_countP]
    exact countP_id_eq_one CalendarEvent.id _ b hndstale hbstale
  · intro e he hcontra
    have he2 := List.mem_filter.mp he
    have hany := he2.2
    rw [Bool.not_eq_true', List.any_eq_false] at hany
    exact hany b hbstale (by rw [hcontra]; simp)
  · show ((pullStale sD eD (pullPhaseA listing
      { events := (pullExternalEvents sD eD listing events nextId).events,
        nextId := (pullExternalEvents sD eD listing events nextId).nextId,
        allGoogleEventIds := [], imported := 0 })).map (fun b => b.id)) = []
    rw [show ∀ l : List CalendarEvent, l.map (fun b => b.id) = [] ↔ l = []
      from fun l => by simp]
    have hnd2 : ((pullExternalEvents sD eD listing events
        nextId).events.map CalendarEvent.id).Nodup := by
      apply hnd1.sublist
      apply List.Sublist.map
      exact List.filter_sublist _
    have hfresh2 : ∀ e ∈ (pullExternalEvents sD eD listing events
        nextId).events, e.id < (pullExternalEvents sD eD listing events
        nextId).nextId := by
      intro e he
      exact hfresh1 e (List.mem_filter.mp he).1
    have hA2 := pullPhaseA_inv listing
      (pullExternalEvents sD eD listing events nextId).events
      { events := (pullExternalEvents sD eD listing events nextId).events,
        nextId := (pullExternalEvents sD eD listing events nextId).nextId,
        allGoogleEventIds := [], imported := 0 }
      ⟨⟨hnd2, hfresh2⟩, by simp, fun e he => Or.inl he,
        fun b2 hb2 _ => hb2⟩
    obtain ⟨-, -, hchar2, -⟩ := hA2
    have hallids2 : (pullPhaseA listing
        { events := (pullExternalEvents sD eD listing events
            nextId).events,
          nextId := (pullExternalEvents sD eD listing events
            nextId).nextId,
          allGoogleEventIds := [], imported := 0 }).allGoogleEventIds =
        collectedIds listing := by
      rw [pullPhaseA_allIds]
      rfl
    unfold pullStale
    rw [List.filter_eq_nil_iff]
    intro x hx
    have hx2 := List.mem_filter.mp hx
    obtain ⟨hxmem, hxblk⟩ := hx2
    unfold isJoyBlocker at hxblk
    rw [Bool.and_eq_true, Bool.and_eq_true, Bool.and_eq_true] at hxblk
    obtain ⟨⟨⟨hxsrc, hxh1⟩, hxh2⟩, hxgid⟩ := hxblk
    rw [Option.isSome_iff_exists] at hxgid
    obtain ⟨h2, hxg⟩ := hxgid
    rw [hxg]
    simp only [Bool.not_eq_true', Bool.not_eq_false]
    rw [List.elem_iff, hallids2]
    rcases hchar2 x hxmem with hxr1 | ⟨h3, hxg3, hin3⟩
    · have hx3 := List.mem_filter.mp hxr1
      obtain ⟨hxst1, hxany⟩ := hx3
      by_contra hnotin
      have hxstale : x ∈ pullStale sD eD (pullPhaseA listing
          { events := events, nextId := nextId, allGoogleEventIds := [],
            imported := 0 }) := by
        unfold pullStale
        refine List.mem_filter.mpr ⟨List.mem_filter.mpr ⟨hxst1, ?_⟩, ?_⟩
        · unfold isJoyBlocker
          rw [Bool.and_eq_true, Bool.and_eq_true, Bool.and_eq_true]
          exact ⟨⟨⟨hxsrc, hxh1⟩, hxh2⟩, by rw [hxg]; rfl⟩
        · rw [hxg]
          simp only [Bool.not_eq_true']
          rw [← Bool.not_eq_true]
          intro hcontra
          rw [List.elem_iff, hallids1] at hcontra
          exact hnotin hcontra
      rw [Bool.not_eq_true', List.any_eq_false] at hxany
      exact hxany x hxstale (by simp)
    · rw [hxg, Option.some.injEq] at hxg3
      rw [hxg3]
      rw [hallids2] at hin3
      exact hin3

/-- Witness for C5: the stale mirror of "g-old" against a listing that only
returns "g1": the first pull deletes it exactly once, no row with its id
survives, and the second pull deletes nothing. -/
theorem pull_drift_cleanup_stale_mirror_witness :
    (pullExternalEvents (utcMillis 2025 3 21 0 0 0)
      (utcMillis 2025 3 29 0 0 0) [("primary", [remoteEventG1])]
      [staleMirror] 10).deletedIds.count staleMirror.id = 1 ∧
    (∀ e ∈ (pullExternalEvents (utcMillis 2025 3 21 0 0 0)
        (utcMillis 2025 3 29 0 0 0) [("primary", [remoteEventG1])]
        [staleMirror] 10).events, e.id ≠ staleMirror.id) ∧
    (pullExternalEvents (utcMillis 2025 3 21 0 0 0)
      (utcMillis 2025 3 29 0 0 0) [("primary", [remoteEventG1])]
      (pullExternalEvents (utcMillis 2025 3 21 0 0 0)
        (utcMillis 2025 3 29 0 0 0) [("primary", [remoteEventG1])]
        [staleMirror] 10).events
      (pullExternalEvents (utcMillis 2025 3 21 0 0 0)
        (utcMillis 2025 3 29 0 0 0) [("primary", [remoteEventG1])]
        [staleMirror] 10).nextId).deletedIds = [] :=
  pull_drift_cleanup_stale_mirror (utcMillis 2025 3 21 0 0 0)
    (utcMillis 2025 3 29 0 0 0) [("primary", [remoteEventG1])]
    [staleMirror] 10 staleMirror "g-old" (by decide) (by decide)
    (List.mem_singleton_self _) rfl rfl (by decide) (by decide) (by decide)

end Joy
